import Mathlib

/-!
Verification of the claude-code-template repository.

The repository's Python sources under scrutiny are:
  - domo/domo_env.py        (machine detection),
  - domo/ssh/tailscale.py   (Tailscale machine-id resolution),
  - scripts/network_discovery.py (ARP output parsing and OUI vendor lookup),
together with the file-access extraction / co-access graph core described by
the specification (PathResolver, CommandPathParser, output parsers, Extractor,
GraphSync); the latter components are modelled from the specification, as
marked on each definition.

Strings are embedded as Lean `String` (a structure over `List Char`), machine
integers do not occur, and Python functions that may raise are embedded as
`Option`-returning functions.  ASCII character transformations mirror the
Python string methods they embed for the ASCII range.
-/

/-- ASCII lowercase of one character, mirroring Python str.lower on ASCII:
codes 65..90 are shifted up by 32, everything else is unchanged. -/
def lowerChar (c : Char) : Char :=
  if 65 ≤ c.toNat ∧ c.toNat ≤ 90 then Char.ofNat (c.toNat + 32) else c

/-- ASCII uppercase of one character, mirroring Python str.upper on ASCII. -/
def upperChar (c : Char) : Char :=
  if 97 ≤ c.toNat ∧ c.toNat ≤ 122 then Char.ofNat (c.toNat - 32) else c

/-- ASCII decimal digit, by code point. -/
def isDigitC (c : Char) : Bool := 48 ≤ c.toNat && c.toNat ≤ 57

/-- ASCII whitespace, the character class stripped by Python str.strip and
matched by the regex class \s. -/
def isPySpace (c : Char) : Bool :=
  c = ' ' || c = '\t' || c = '\n' || c = '\r' || c = '\x0b' || c = '\x0c'

/-- Python str.strip on a character list: drop whitespace from both ends. -/
def pyStrip (l : List Char) : List Char :=
  ((l.dropWhile isPySpace).reverse.dropWhile isPySpace).reverse

/-- Python str.lower of a whole string (ASCII range). -/
def lowerStr (s : String) : String := ⟨s.data.map lowerChar⟩

/-- Python str.upper of a whole string (ASCII range). -/
def upperStr (s : String) : String := ⟨s.data.map upperChar⟩

/-- Python str.split(sep) for a one-character separator: splits at every
occurrence, keeping empty parts ("".split(sep) is [""]). -/
def splitOnC (sep : Char) : List Char → List (List Char)
  | [] => [[]]
  | c :: rest =>
    if c = sep then [] :: splitOnC sep rest
    else
      match splitOnC sep rest with
      | [] => [[c]]
      | p :: ps => (c :: p) :: ps

/-- Python sep.join, for a one-character separator. -/
def joinC (sep : Char) (parts : List (List Char)) : List Char :=
  List.intercalate [sep] parts

/-- Whitespace-separated words of a character list (shell-style token split),
accumulator-based. -/
def wordsAux (acc : List Char) : List Char → List (List Char)
  | [] => if acc = [] then [] else [acc.reverse]
  | c :: rest =>
    if isPySpace c then
      if acc = [] then wordsAux [] rest else acc.reverse :: wordsAux [] rest
    else wordsAux (c :: acc) rest

/-- Whitespace-separated words of a string. -/
def wordsOf (s : String) : List String := (wordsAux [] s.data).map (fun l => ⟨l⟩)

/-- First-occurrence-preserving deduplication of a string list. -/
def uniqueAux (seen : List String) : List String → List String
  | [] => []
  | x :: xs => if x ∈ seen then uniqueAux seen xs else x :: uniqueAux (x :: seen) xs

/-- Unique elements of a string list, first occurrence kept, order preserved. -/
def uniqueStrings (l : List String) : List String := uniqueAux [] l

/-- Strict lexicographic order on character lists by code point, matching
Python string comparison. -/
def lexLt : List Char → List Char → Bool
  | [], [] => false
  | [], _ :: _ => true
  | _ :: _, [] => false
  | a :: as, b :: bs =>
    if a.toNat < b.toNat then true
    else if b.toNat < a.toNat then false
    else lexLt as bs

/-- Strict lexicographic order on strings by code point. -/
def strLt (a b : String) : Bool := lexLt a.data b.data

/-! ## Spec-modelled extraction core

The file-access extraction engine and co-access graph synchroniser described
by the specification are not present under the repository's source tree (only
this specification describes them), so the following definitions are modelled
from the specification text, section by section. -/

/-- Modelled from the spec (section 3): the five access modes classifying how
a tool touched a file. -/
inductive AccessMode where
  | read
  | write
  | modify
  | search
  | execute
  deriving DecidableEq, Repr

/-- Modelled from the spec (section 4.1): the result record of
PathResolver.resolve. -/
structure ResolveResult where
  absolutePath : Option String
  normalizedPath : Option String
  projectRoot : Option String
  relativeToProject : Option String
  fileExists : Option Bool
  deriving DecidableEq, Repr

/-- The empty resolver result returned for an empty/missing path. -/
def emptyResolve : ResolveResult := ⟨none, none, none, none, none⟩

/-- Backslash-to-forward-slash conversion of one character. -/
def substSlash (c : Char) : Char := if c = '\\' then '/' else c

/-- Modelled from the spec (section 4.1): path normalisation converts every
backslash to a forward slash (including UNC prefixes) and preserves case. -/
def normalizePath (p : String) : String := ⟨p.data.map substSlash⟩

/-- A path is absolute if it starts with a slash (POSIX, UNC after
normalisation) or with a drive letter followed by a colon. -/
def isAbsolutePath (p : String) : Bool :=
  match p.data with
  | [] => false
  | c :: rest =>
    c = '/' ||
      (match rest with
       | d :: _ => d = ':' && c.isAlpha
       | [] => false)

/-- Join a relative path onto an optional working directory. -/
def joinCwd (cwd : Option String) (p : String) : String :=
  match cwd with
  | some c => ⟨c.data ++ '/' :: p.data⟩
  | none => p

/-- Modelled from the spec (sections 4.1 and 7): PathResolver.resolve.  The
repository's implementation is not under the source tree; filesystem-dependent
behaviour (symlink canonicalisation, existence probing, project-marker
directory walk) is modelled by its specified degraded form: lexical
absolutisation, existence "unknown" (None), and no marker knowledge, hence no
project root.  An empty path yields the empty result, never an error. -/
def PathResolver.resolve (path : String) (cwd : Option String) : ResolveResult :=
  if path = "" then emptyResolve
  else
    let n := normalizePath path
    let abs := if isAbsolutePath n then n else normalizePath (joinCwd cwd path)
    { absolutePath := some abs, normalizedPath := some abs,
      projectRoot := none, relativeToProject := none, fileExists := none }

/-- Modelled from the spec (sections 4.2 and 4.4): the operation tags of the
command-shape table (permission changes are the "modify" operation of the
operation-to-access-mode table). -/
inductive CmdOp where
  | read
  | list
  | copy
  | move
  | delete
  | create
  | execute
  | stage
  | modify
  deriving DecidableEq, Repr

/-- Modelled from the spec (section 4.2): one extracted
(path, operation, isSource, isDestination) tuple. -/
structure CmdEntry where
  path : String
  operation : CmdOp
  isSource : Bool
  isDestination : Bool
  deriving DecidableEq, Repr

/-- A leading-dash token, treated as a flag and skipped before path
arguments. -/
def isFlagTok (s : String) : Bool :=
  match s.data with
  | '-' :: _ => true
  | _ => false

/-- Arguments that are not flag tokens. -/
def nonFlagArgs (args : List String) : List String :=
  args.filter (fun a => !isFlagTok a)

/-- Modelled from the spec (sections 4.2 and 9): the ordered command-shape
table, evaluated first-match-only against the command's leading token
(stage additionally requires the "add" subcommand token).  Returns the
matched operation and the remaining argument tokens, or none. -/
def ruleOf (toks : List String) : Option (CmdOp × List String) :=
  match toks with
  | [] => none
  | t :: args =>
    if t = "cat" ∨ t = "head" ∨ t = "tail" then some (.read, args)
    else if t = "ls" ∨ t = "find" ∨ t = "cd" then some (.list, args)
    else if t = "cp" then some (.copy, args)
    else if t = "mv" then some (.move, args)
    else if t = "rm" then some (.delete, args)
    else if t = "mkdir" ∨ t = "touch" then some (.create, args)
    else if t = "python" ∨ t = "python3" ∨ t = "bash" ∨ t = "sh" ∨ t = "node" then
      some (.execute, args)
    else if t = "git" then
      match args with
      | a :: rest => if a = "add" then some (.stage, rest) else none
      | [] => none
    else if t = "chmod" ∨ t = "chown" then some (.modify, args)
    else none

/-- Modelled from the spec (section 4.2): build the entry list for a matched
rule.  Copy/move always yield the source entry then the destination entry;
execute yields the script path (first non-flag argument after the
interpreter); permission change skips its mode argument; the remaining
operations yield one source-marked entry per non-flag path argument. -/
def buildEntries (op : CmdOp) (args : List String) : List CmdEntry :=
  match op with
  | .copy | .move =>
    match nonFlagArgs args with
    | s :: d :: _ => [⟨s, op, true, false⟩, ⟨d, op, false, true⟩]
    | _ => []
  | .execute =>
    match nonFlagArgs args with
    | s :: _ => [⟨s, op, true, false⟩]
    | [] => []
  | .modify =>
    match nonFlagArgs args with
    | _ :: ps => ps.map (fun p => ⟨p, op, true, false⟩)
    | [] => []
  | _ => (nonFlagArgs args).map (fun p => ⟨p, op, true, false⟩)

/-- Modelled from the spec (section 4.2): CommandPathParser.parse extracts
(path, operation, role) tuples from raw shell command text; no match or empty
input yields the empty list, never an error. -/
def CommandPathParser.parse (cmd : String) : List CmdEntry :=
  match ruleOf (wordsOf cmd) with
  | none => []
  | some (op, args) => buildEntries op args

/-- Modelled from the spec (section 4.3): OutputListParser — split glob-style
tool output on newlines, trim each line, drop blank lines and lines beginning
with a bracket or brace; the remaining lines are candidate paths.  Permissive
by design, never an error. -/
def OutputListParser.parse (out : String) : List String :=
  (((splitOnC '\n' out.data).map pyStrip).filter
    (fun l => !l.isEmpty && l.head? ≠ some '[' && l.head? ≠ some '{')).map
    (fun l => ⟨l⟩)

/-- Modelled from the spec (section 4.3): one grep-style match. -/
structure GrepMatch where
  file : String
  lineNumber : Option Nat
  content : String
  deriving DecidableEq, Repr

/-- Parse a colon-separated field as a decimal line number (digits only;
Python int() on grep line-number fields). -/
def parseNatField (l : List Char) : Option Nat :=
  if !l.isEmpty && l.all isDigitC then
    some (l.foldl (fun n c => n * 10 + (c.toNat - 48)) 0)
  else none

/-- Modelled from the spec (section 4.3): interpret the colon-split fields of
one match line.  A leading single-letter alphabetic token is a Windows drive
prefix and is reconstructed into the path; then the next field is tried as an
integer line number, in which case the remaining fields rejoined with colons
form the content (truncated to 200 characters); otherwise the remaining text
is the content with no line number (bare-path mode). -/
def parseMatchFields (fields : List (List Char)) : Option GrepMatch :=
  match fields with
  | [] => none
  | f0 :: restAll =>
    let pr :=
      if f0.length = 1 ∧ (f0.head?.map Char.isAlpha).getD false then
        match restAll with
        | r0 :: rs => (f0 ++ ':' :: r0, rs)
        | [] => (f0, ([] : List (List Char)))
      else (f0, restAll)
    if pr.1 = [] then none
    else
      match pr.2 with
      | [] => some ⟨⟨pr.1⟩, none, ""⟩
      | nf :: content =>
        match parseNatField nf with
        | some n => some ⟨⟨pr.1⟩, some n, ⟨(joinC ':' content).take 200⟩⟩
        | none => some ⟨⟨pr.1⟩, none, ⟨(joinC ':' (nf :: content)).take 200⟩⟩

/-- Deduplicate matches by file path, keeping the first occurrence's
metadata. -/
def dedupByFileAux (seen : List String) : List GrepMatch → List GrepMatch
  | [] => []
  | m :: rest =>
    if m.file ∈ seen then dedupByFileAux seen rest
    else m :: dedupByFileAux (m.file :: seen) rest

/-- Modelled from the spec (section 4.3): OutputMatchParser — split grep-style
output on newlines and interpret each non-blank line as a
"file:line:content" match; never an error. -/
def OutputMatchParser.parse (out : String) : List GrepMatch :=
  dedupByFileAux []
    ((((splitOnC '\n' out.data).map pyStrip).filter (fun l => !l.isEmpty)).filterMap
      (fun l => parseMatchFields (splitOnC ':' l)))

/-- Modelled from the spec (sections 6 and 9): tool output is either a plain
string or a map with stdout/stderr/interrupted, normalised into an explicit
sum type at the input boundary. -/
inductive ToolOutput where
  | str (s : String)
  | obj (stdout stderr : String) (interrupted : Bool)
  deriving DecidableEq, Repr

/-- The textual payload extraction reads from a tool output. -/
def ToolOutput.text : ToolOutput → String
  | .str s => s
  | .obj o _ _ => o

/-- Modelled from the spec (section 4.4): the canonical per-invocation
extraction result. -/
structure FileAccessResult where
  primaryPath : Option String
  relatedPaths : List String
  accessMode : Option AccessMode
  projectRoot : Option String
  isGlobExpansion : Bool
  deriving DecidableEq, Repr

/-- The empty extraction result, returned for unknown tools and malformed or
missing input, never an error. -/
def emptyAccess : FileAccessResult := ⟨none, [], none, none, false⟩

/-- Modelled from the spec (section 4.4): the fixed operation-to-access-mode
table used for the shell-execution tool. -/
def opToMode : CmdOp → AccessMode
  | .read => .read
  | .delete => .write
  | .copy => .read
  | .move => .modify
  | .create => .write
  | .execute => .execute
  | .list => .search
  | .stage => .read
  | .modify => .modify

/-- Modelled from the spec (section 4.4): fixed access mode per direct-path
tool (read/write/edit family), none for all other tool names. -/
def directToolMode (tn : String) : Option AccessMode :=
  if tn = "Read" then some .read
  else if tn = "Write" then some .write
  else if tn = "Edit" then some .modify
  else none

/-- Look up a string field of the string-keyed tool-input map. -/
def lookupInput (k : String) (inp : List (String × String)) : Option String :=
  inp.lookup k

/-- Resolve one path and keep its normalised form, if any. -/
def resolvedNorm (cwd : Option String) (p : String) : Option String :=
  (PathResolver.resolve p cwd).normalizedPath

/-- Modelled from the spec (section 4.4): the search-base branch shared by the
pattern-matching tools: primary is the resolved search-base input (or cwd),
access mode is search, related paths come from the parsed output, and
isGlobExpansion is true only for the list-style (Glob) case with at least one
related path found. -/
def extractSearch (toolName : String) (toolInput : List (String × String))
    (toolOutput : Option ToolOutput) (cwd : Option String) : FileAccessResult :=
  match (lookupInput "path" toolInput).orElse (fun _ => cwd) with
  | none => emptyAccess
  | some b =>
    let r := PathResolver.resolve b cwd
    match r.normalizedPath with
    | none => emptyAccess
    | some np =>
      let related :=
        match toolOutput with
        | none => []
        | some out =>
          if toolName = "Glob" then
            (OutputListParser.parse out.text).filterMap (resolvedNorm cwd)
          else
            (OutputMatchParser.parse out.text).filterMap
              (fun m => resolvedNorm cwd m.file)
      ⟨some np, related, some .search, r.projectRoot,
        toolName = "Glob" && !related.isEmpty⟩

/-- Modelled from the spec (section 4.4): the shell-execution branch: run
CommandPathParser on the command text; the first source-marked entry becomes
the primary path, mapped through the operation-to-access-mode table; all
other distinct resolved paths become related paths. -/
def extractShell (toolInput : List (String × String)) (cwd : Option String) :
    FileAccessResult :=
  match lookupInput "command" toolInput with
  | none => emptyAccess
  | some cmd =>
    let entries := CommandPathParser.parse cmd
    match entries.find? (fun e => e.isSource) with
    | none => emptyAccess
    | some src =>
      let r := PathResolver.resolve src.path cwd
      match r.normalizedPath with
      | none => emptyAccess
      | some np =>
        let related :=
          uniqueStrings
            (((entries.filter (fun e => e.path ≠ src.path)).filterMap
              (fun e => resolvedNorm cwd e.path)).filter (fun q => q ≠ np))
        ⟨some np, related, some (opToMode src.operation), r.projectRoot, false⟩

/-- Modelled from the spec (section 4.4): Extractor.extract dispatches on the
tool identity: direct-path tools, pattern-matching tools (Glob list-style,
Grep match-style), the shell-execution tool, and otherwise the empty result
(unknown tool is not a failure). -/
def Extractor.extract (toolName : String) (toolInput : List (String × String))
    (toolOutput : Option ToolOutput) (cwd : Option String) : FileAccessResult :=
  match directToolMode toolName with
  | some mode =>
    (match lookupInput "path" toolInput with
     | some p =>
       let r := PathResolver.resolve p cwd
       (match r.normalizedPath with
        | some np => ⟨some np, [], some mode, r.projectRoot, false⟩
        | none => emptyAccess)
     | none => emptyAccess)
  | none =>
    if toolName = "Glob" ∨ toolName = "Grep" then
      extractSearch toolName toolInput toolOutput cwd
    else if toolName = "Bash" then extractShell toolInput cwd
    else emptyAccess

/-- Modelled from the spec (sections 3 and 6): one row of the derived
per-path access log. -/
structure AccessRecord where
  sessionId : String
  filePath : String
  normalizedPath : String
  accessMode : AccessMode
  projectRoot : Option String
  toolName : String
  timestamp : Nat
  isPrimaryTarget : Bool
  isGlobExpansion : Bool
  lineNumbers : List Nat
  syncedToGraph : Bool
  deriving DecidableEq, Repr

/-- Modelled from the spec (section 3): a graph-side file node with per-mode
access counters and first/last access timestamps. -/
structure FileNode where
  reads : Nat
  writes : Nat
  modifies : Nat
  searches : Nat
  executes : Nat
  firstAccessed : Nat
  lastAccessed : Nat
  deriving DecidableEq, Repr

/-- A fresh file node created at a timestamp, all counters zero. -/
def freshNode (ts : Nat) : FileNode := ⟨0, 0, 0, 0, 0, ts, ts⟩

/-- Increment the counter of one access mode and bump the last-access
timestamp. -/
def bumpNode (m : AccessMode) (ts : Nat) (n : FileNode) : FileNode :=
  match m with
  | .read => { n with reads := n.reads + 1, lastAccessed := ts }
  | .write => { n with writes := n.writes + 1, lastAccessed := ts }
  | .modify => { n with modifies := n.modifies + 1, lastAccessed := ts }
  | .search => { n with searches := n.searches + 1, lastAccessed := ts }
  | .execute => { n with executes := n.executes + 1, lastAccessed := ts }

/-- Modelled from the spec (section 3): the graph store: file nodes keyed by
path and co-access edges keyed by a canonical unordered path pair with a
session count. -/
structure GraphState where
  files : List (String × FileNode)
  edges : List ((String × String) × Nat)
  deriving DecidableEq, Repr

/-- The empty graph. -/
def emptyGraphState : GraphState := ⟨[], []⟩

/-- Canonical unordered pair: the lexicographically smaller path first. -/
def canonPair (a b : String) : String × String :=
  if strLt b a then (b, a) else (a, b)

/-- Insert-or-increment of one canonical edge key. -/
def bumpEdge (key : String × String) :
    List ((String × String) × Nat) → List ((String × String) × Nat)
  | [] => [(key, 1)]
  | (k, n) :: rest =>
    if k = key then (k, n + 1) :: rest else (k, n) :: bumpEdge key rest

/-- Modelled from the spec (sections 4.6 and 6): upsertCoAccess — create the
canonical edge with count 1 on the first shared session, increment it on each
later session containing the same pair. -/
def upsertCoAccess (a b : String) (g : GraphState) : GraphState :=
  { g with edges := bumpEdge (canonPair a b) g.edges }

/-- The stored co-access count of an unordered pair (0 when absent). -/
def coAccessCount (g : GraphState) (a b : String) : Nat :=
  (((g.edges.find? (fun e => e.1 = canonPair a b)).map (fun e => e.2)).getD 0)

/-- Insert-or-update of one file node under an access. -/
def upsertFile (p : String) (m : AccessMode) (ts : Nat) :
    List (String × FileNode) → List (String × FileNode)
  | [] => [(p, bumpNode m ts (freshNode ts))]
  | (q, n) :: rest =>
    if q = p then (q, bumpNode m ts n) :: rest else (q, n) :: upsertFile p m ts rest

/-- The not-yet-synced access rows of one session. -/
def unsyncedOf (sid : String) (recs : List AccessRecord) : List AccessRecord :=
  recs.filter (fun r => r.sessionId = sid && !r.syncedToGraph)

/-- The set of unique normalised paths of a session's not-yet-synced rows,
first occurrence order. -/
def uniqueSessionPaths (sid : String) (recs : List AccessRecord) : List String :=
  uniqueStrings ((unsyncedOf sid recs).map (fun r => r.normalizedPath))

/-- All unordered pairs of a duplicate-free list, in order of occurrence. -/
def allPairs : List String → List (String × String)
  | [] => []
  | x :: xs => xs.map (fun y => (x, y)) ++ allPairs xs

/-- The access mode recorded for a path in a row set (first matching row;
read when absent). -/
def modeOfPath (rows : List AccessRecord) (p : String) : AccessMode :=
  (((rows.find? (fun r => r.normalizedPath = p)).map (fun r => r.accessMode)).getD .read)

/-- Modelled from the spec (section 4.6): the graph write of one session's
sync — upsert a file node per unique path, then upsert a co-access edge per
unordered pair of unique paths. -/
def syncGraph (sid : String) (recs : List AccessRecord) (ts : Nat)
    (g : GraphState) : GraphState :=
  let rows := unsyncedOf sid recs
  let u := uniqueSessionPaths sid recs
  let g1 : GraphState :=
    { g with files := u.foldl (fun fs p => upsertFile p (modeOfPath rows p) ts fs) g.files }
  (allPairs u).foldl (fun g2 pr => upsertCoAccess pr.1 pr.2 g2) g1

/-- Flip the synced flag of a record when it belongs to the session. -/
def markOne (sid : String) (r : AccessRecord) : AccessRecord :=
  if r.sessionId = sid then { r with syncedToGraph := true } else r

/-- Mark a whole session's rows synced in one pass. -/
def markAll (sid : String) (recs : List AccessRecord) : List AccessRecord :=
  recs.map (markOne sid)

/-- The persistent state GraphSync acts on: the graph store plus the derived
access log. -/
structure SyncState where
  graph : GraphState
  records : List AccessRecord
  deriving DecidableEq, Repr

/-- Modelled from the spec (sections 4.6 and 7): GraphSync.syncSession.  The
best-effort graph write's outcome is an explicit boolean input: on failure
nothing at all is written (the whole session stays retriable, never
half-synced); on success the graph is updated and the entire session's rows
are marked synced in one atomic pass. -/
def GraphSync.syncSession (graphWriteOk : Bool) (sid : String) (ts : Nat)
    (st : SyncState) : SyncState :=
  if graphWriteOk then
    { graph := syncGraph sid st.records ts st.graph,
      records := markAll sid st.records }
  else st

/-! ## domo/domo_env.py — machine detection -/

/-- One entry of domo_env.py's MACHINE_INVENTORY, restricted to the keys
DomoEnv._detect_machine reads: hostnames, ips, role, gpu and vlan (the
connection-oriented keys tailscale_name, tailscale_ip, ssh_user and os are
never read by detection). -/
structure InvMachine where
  hostnames : List String
  ips : List String
  role : String
  gpu : Option String
  vlan : List Nat
  deriving DecidableEq, Repr

/-- domo_env.py MACHINE_INVENTORY, in source (insertion) order. -/
def MACHINE_INVENTORY : List (String × InvMachine) :=
  [("terramaster-nas",
    ⟨["terramaster", "nas", "f4-424", "box-nas"],
     ["192.168.1.20", "192.168.10.10", "192.168.20.10"],
     "NAS/Docker Host", none, [10, 20]⟩),
   ("box-rig",
    ⟨["box-rig", "boxrig"], ["192.168.30.10"],
     "GPU Workstation", some "RTX 5090", [30]⟩),
   ("box-rex",
    ⟨["box-rex", "boxrex"], ["192.168.30.11"],
     "GPU Workstation", some "RTX 4090", [30]⟩),
   ("macbook-pro",
    ⟨["macbook", "mbp"], [],
     "Mobile Workstation", none, [30]⟩),
   ("ugv-rover-jetson",
    ⟨["jetson", "ugv", "rover", "orin"], ["192.168.50.10"],
     "Robotics Platform", none, [50]⟩),
   ("lab-pc",
    ⟨["lab-pc", "labpc", "pi5"], ["192.168.50.20"],
     "Lab Base Station", none, [50]⟩)]

/-- domo_env.py MachineInfo. -/
structure MachineInfo where
  machine_id : String
  hostname : String
  role : String
  vlans : List Nat
  local_ips : List String
  gpu : Option String
  detection_method : String
  deriving DecidableEq, Repr

/-- Python substring containment (the "pat in hay" operator on strings). -/
def containsSub (hay pat : List Char) : Bool :=
  match hay with
  | [] => pat.isEmpty
  | _ :: t => pat.isPrefixOf hay || containsSub t pat

/-- Detection step 2 of domo_env.py: the first inventory machine one of whose
hostname patterns occurs in the (lowered) hostname. -/
def findHostnameMatch (hostname : String) : Option (String × InvMachine) :=
  MACHINE_INVENTORY.find?
    (fun p => p.2.hostnames.any (fun pat => containsSub hostname.data pat.data))

/-- Detection step 3 of domo_env.py: the first inventory machine one of whose
known IPs is among the local IPs. -/
def findIpMatch (localIps : List String) : Option (String × InvMachine) :=
  MACHINE_INVENTORY.find? (fun p => p.2.ips.any (fun k => localIps.contains k))

/-- Detection step 4 of domo_env.py: the first inventory machine whose
configured GPU name occurs (case-insensitively) in the detected GPU string. -/
def findGpuMatch (gpu : String) : Option (String × InvMachine) :=
  MACHINE_INVENTORY.find?
    (fun p =>
      match p.2.gpu with
      | some g => containsSub (gpu.data.map lowerChar) (g.data.map lowerChar)
      | none => false)

/-- The fallback MachineInfo of domo_env.py ("Unknown machine"). -/
def fallbackInfo (hostname : String) (localIps : List String)
    (gpu : Option String) : MachineInfo :=
  ⟨"unknown", hostname, "Unknown", [], localIps, gpu, "fallback"⟩

/-- Build a MachineInfo from an inventory hit. -/
def infoOfInv (mid : String) (inv : InvMachine) (hostname : String)
    (localIps : List String) (gpu : Option String) (method : String) : MachineInfo :=
  ⟨mid, hostname, inv.role, inv.vlan, localIps, gpu, method⟩

/-- Steps 2-4 of DomoEnv._detect_machine (after the MACHINE_ID check):
hostname patterns, then known IPs, then GPU (the detected GPU string is used
only when truthy, i.e. present and non-empty, exactly as Python's
"if gpu:"). -/
def detectNoEnv (hostname : String) (localIps : List String)
    (gpu : Option String) : MachineInfo :=
  match findHostnameMatch hostname with
  | some (mid, inv) => infoOfInv mid inv hostname localIps inv.gpu "hostname"
  | none =>
    match findIpMatch localIps with
    | some (mid, inv) => infoOfInv mid inv hostname localIps inv.gpu "ip_address"
    | none =>
      match gpu with
      | some g =>
        if g = "" then fallbackInfo hostname localIps (some g)
        else
          match findGpuMatch g with
          | some (mid, inv) => infoOfInv mid inv hostname localIps (some g) "gpu"
          | none => fallbackInfo hostname localIps (some g)
      | none => fallbackInfo hostname localIps none

/-- DomoEnv._detect_machine from domo_env.py.  Its effectful inputs are made
explicit: the MACHINE_ID environment variable (none when unset), the raw
socket hostname (lowered on entry, as in the source), the local IP list and
the detected GPU string.  Python's "if machine_id := os.environ.get(...)"
treats an empty value as unset, hence the emptiness test. -/
def detect_machine (envMachineId : Option String) (rawHostname : String)
    (localIps : List String) (gpu : Option String) : MachineInfo :=
  let hostname := lowerStr rawHostname
  match envMachineId with
  | some mid =>
    if mid = "" then detectNoEnv hostname localIps gpu
    else
      let inv := MACHINE_INVENTORY.lookup mid
      { machine_id := mid, hostname := hostname,
        role := ((inv.map (fun i => i.role)).getD "Unknown"),
        vlans := ((inv.map (fun i => i.vlan)).getD []),
        local_ips := localIps,
        gpu := inv.bind (fun i => i.gpu),
        detection_method := "env_var" }
  | none => detectNoEnv hostname localIps gpu

/-! ## domo/ssh/tailscale.py — machine resolution -/

/-- One entry of tailscale.py's TAILSCALE_MACHINES. -/
structure TsMachine where
  tailscale_name : String
  tailscale_ip : String
  ssh_user : String
  os : String
  description : String
  deriving DecidableEq, Repr

/-- tailscale.py TAILSCALE_MACHINES, in source order. -/
def TAILSCALE_MACHINES : List (String × TsMachine) :=
  [("box-rig", ⟨"box-rig", "100.120.211.28", "boxhead", "windows",
      "GPU Workstation (RTX 5090)"⟩),
   ("box-rex", ⟨"box-rex", "100.98.133.117", "boxhead", "windows",
      "GPU Workstation (RTX 4090)"⟩),
   ("box-mac", ⟨"box-mac-1", "100.69.182.91", "boxhead", "macos",
      "Mobile Workstation"⟩),
   ("terramaster-nas", ⟨"terramaster-nas", "100.74.45.35", "boxhead", "linux",
      "NAS/Docker Host"⟩)]

/-- tailscale.py MACHINE_ALIASES, in source order. -/
def MACHINE_ALIASES : List (String × String) :=
  [("rig", "box-rig"), ("rex", "box-rex"), ("mac", "box-mac"),
   ("macbook", "box-mac"), ("nas", "terramaster-nas"),
   ("terramaster", "terramaster-nas")]

/-- The argument normalisation of TailscaleSSH.resolve_machine:
machine_id.lower().strip(). -/
def normMachineId (s : String) : String := ⟨pyStrip (s.data.map lowerChar)⟩

/-- TailscaleSSH.resolve_machine after argument normalisation: aliases first,
then a direct key match, then a match on a machine's tailscale_name.  A
ValueError raise is embedded as none. -/
def resolveCore (m : String) : Option String :=
  match MACHINE_ALIASES.lookup m with
  | some v => some v
  | none =>
    if (TAILSCALE_MACHINES.lookup m).isSome then some m
    else
      (TAILSCALE_MACHINES.find? (fun p => p.2.tailscale_name = m)).map
        (fun p => p.1)

/-- TailscaleSSH.resolve_machine from tailscale.py: resolve a machine ID or
alias to a canonical machine ID, or raise ValueError (none). -/
def resolve_machine (s : String) : Option String := resolveCore (normMachineId s)

/-! ## scripts/network_discovery.py — Windows ARP parsing -/

/-- The regex digit-or-dot class [\d.] (ASCII digits, as in ARP text). -/
def isDigitDotC (c : Char) : Bool := isDigitC c || c = '.'

/-- The regex class [0-9a-fA-F-] of Windows ARP MAC tokens. -/
def isHexDashC (c : Char) : Bool :=
  isDigitC c || (97 ≤ c.toNat && c.toNat ≤ 102) || (65 ≤ c.toNat && c.toNat ≤ 70) || c = '-'

/-- The regex word class \w (ASCII letters, digits, underscore). -/
def isWordCharC (c : Char) : Bool :=
  isDigitC c || (97 ≤ c.toNat && c.toNat ≤ 122) || (65 ≤ c.toNat && c.toNat ≤ 90) || c = '_'

/-- Dash-to-colon substitution of one character (str.replace("-", ":")). -/
def dashToColon (c : Char) : Char := if c = '-' then ':' else c

/-- Dot-to-colon substitution of one character (str.replace(".", ":")). -/
def dotToColon (c : Char) : Char := if c = '.' then ':' else c

/-- Colon-to-dash substitution of one character, used to state separator
insensitivity. -/
def colonToDash (c : Char) : Char := if c = ':' then '-' else c

/-- Colon-to-dot substitution of one character, used to state separator
insensitivity. -/
def colonToDot (c : Char) : Char := if c = ':' then '.' else c

/-- network_discovery.py DiscoveredDevice. -/
structure DiscoveredDevice where
  mac_address : String
  ip_address : String
  hostname : Option String
  vendor : Option String
  discovery_method : String
  interface : Option String
  deriving DecidableEq, Repr

/-- network_discovery.py OUI_VENDORS, in source order.  The source dict
literal lists the key 00:04:4B twice (NVIDIA, then Synology); a Python dict
keeps the last value, so the shadowed NVIDIA entry is omitted here. -/
def OUI_VENDORS : List (String × String) :=
  [("00:1A:79", "Intel"),
   ("00:50:56", "VMware"),
   ("00:0C:29", "VMware"),
   ("00:15:5D", "Microsoft Hyper-V"),
   ("08:00:27", "VirtualBox"),
   ("52:54:00", "QEMU/KVM"),
   ("B8:27:EB", "Raspberry Pi"),
   ("DC:A6:32", "Raspberry Pi"),
   ("E4:5F:01", "Raspberry Pi"),
   ("28:CD:C1", "Raspberry Pi"),
   ("D8:3A:DD", "Raspberry Pi"),
   ("00:E0:4C", "Realtek"),
   ("00:1B:21", "Intel"),
   ("00:1E:67", "Intel"),
   ("3C:7C:3F", "Intel"),
   ("AC:DE:48", "Intel"),
   ("A4:83:E7", "Apple"),
   ("14:98:77", "Apple"),
   ("F0:18:98", "Apple"),
   ("00:1F:F3", "Apple"),
   ("00:25:00", "Apple"),
   ("00:03:93", "Apple"),
   ("00:14:51", "Apple"),
   ("00:16:CB", "Apple"),
   ("00:17:F2", "Apple"),
   ("00:1C:B3", "Apple"),
   ("00:1D:4F", "Apple"),
   ("00:1E:C2", "Apple"),
   ("00:21:E9", "Apple"),
   ("00:22:41", "Apple"),
   ("00:23:12", "Apple"),
   ("00:23:32", "Apple"),
   ("00:23:6C", "Apple"),
   ("00:23:DF", "Apple"),
   ("00:24:36", "Apple"),
   ("00:25:4B", "Apple"),
   ("00:25:BC", "Apple"),
   ("00:26:08", "Apple"),
   ("00:26:4A", "Apple"),
   ("00:26:B0", "Apple"),
   ("00:26:BB", "Apple"),
   ("18:E7:F4", "Apple"),
   ("20:C9:D0", "Apple"),
   ("24:A0:74", "Apple"),
   ("28:6A:BA", "Apple"),
   ("34:C0:59", "Apple"),
   ("40:6C:8F", "Apple"),
   ("44:2A:60", "Apple"),
   ("58:55:CA", "Apple"),
   ("5C:F9:38", "Apple"),
   ("60:03:08", "Apple"),
   ("64:B9:E8", "Apple"),
   ("78:31:C1", "Apple"),
   ("78:7B:8A", "Apple"),
   ("80:E6:50", "Apple"),
   ("84:38:35", "Apple"),
   ("88:66:A5", "Apple"),
   ("8C:58:77", "Apple"),
   ("90:B9:31", "Apple"),
   ("98:D6:BB", "Apple"),
   ("9C:20:7B", "Apple"),
   ("A4:5E:60", "Apple"),
   ("A8:66:7F", "Apple"),
   ("AC:87:A3", "Apple"),
   ("B4:F0:AB", "Apple"),
   ("B8:C1:11", "Apple"),
   ("BC:52:B7", "Apple"),
   ("C0:CE:CD", "Apple"),
   ("C8:2A:14", "Apple"),
   ("D0:E1:40", "Apple"),
   ("D4:9A:20", "Apple"),
   ("D8:1D:72", "Apple"),
   ("DC:2B:2A", "Apple"),
   ("E0:5F:45", "Apple"),
   ("E4:8B:7F", "Apple"),
   ("E8:06:88", "Apple"),
   ("F0:B4:79", "Apple"),
   ("F4:5C:89", "Apple"),
   ("FC:25:3F", "Apple"),
   ("00:1A:A0", "Dell"),
   ("00:14:22", "Dell"),
   ("00:1E:4F", "Dell"),
   ("00:21:9B", "Dell"),
   ("14:FE:B5", "Dell"),
   ("18:A9:9B", "Dell"),
   ("24:B6:FD", "Dell"),
   ("34:17:EB", "Dell"),
   ("44:A8:42", "Dell"),
   ("54:9F:35", "Dell"),
   ("5C:26:0A", "Dell"),
   ("74:86:7A", "Dell"),
   ("78:2B:CB", "Dell"),
   ("80:18:44", "Dell"),
   ("84:7B:EB", "Dell"),
   ("90:B1:1C", "Dell"),
   ("98:90:96", "Dell"),
   ("A4:1F:72", "Dell"),
   ("A4:BA:DB", "Dell"),
   ("B0:83:FE", "Dell"),
   ("B8:AC:6F", "Dell"),
   ("BC:30:5B", "Dell"),
   ("C8:1F:66", "Dell"),
   ("D4:BE:D9", "Dell"),
   ("E4:F0:04", "Dell"),
   ("F0:1F:AF", "Dell"),
   ("F4:8E:38", "Dell"),
   ("F8:B1:56", "Dell"),
   ("FC:4D:D4", "Dell"),
   ("00:50:B6", "NVIDIA"),
   ("48:B0:2D", "NVIDIA"),
   ("00:1B:FC", "ASUSTek"),
   ("00:22:15", "ASUSTek"),
   ("00:26:18", "ASUSTek"),
   ("04:92:26", "ASUSTek"),
   ("08:60:6E", "ASUSTek"),
   ("10:BF:48", "ASUSTek"),
   ("14:DA:E9", "ASUSTek"),
   ("1C:87:2C", "ASUSTek"),
   ("20:CF:30", "ASUSTek"),
   ("2C:56:DC", "ASUSTek"),
   ("30:5A:3A", "ASUSTek"),
   ("30:85:A9", "ASUSTek"),
   ("38:D5:47", "ASUSTek"),
   ("40:B0:34", "ASUSTek"),
   ("4C:ED:FB", "ASUSTek"),
   ("50:46:5D", "ASUSTek"),
   ("54:04:A6", "ASUSTek"),
   ("60:45:CB", "ASUSTek"),
   ("74:D0:2B", "ASUSTek"),
   ("AC:9E:17", "ASUSTek"),
   ("B0:6E:BF", "ASUSTek"),
   ("BC:EE:7B", "ASUSTek"),
   ("C8:60:00", "ASUSTek"),
   ("E0:3F:49", "ASUSTek"),
   ("F4:6D:04", "ASUSTek"),
   ("70:85:C2", "TP-Link"),
   ("98:DA:C4", "TP-Link"),
   ("00:EB:D5", "Cisco"),
   ("00:1A:6C", "Cisco"),
   ("00:24:C4", "Cisco"),
   ("28:CF:DA", "Netgear"),
   ("A0:63:91", "Netgear"),
   ("C4:04:15", "Netgear"),
   ("00:04:4B", "Synology"),
   ("00:11:32", "Synology"),
   ("00:1E:06", "QNAP"),
   ("24:5E:BE", "QNAP"),
   ("00:08:9B", "TerraMaster"),
   ("50:6B:4B", "Amazon"),
   ("68:54:FD", "Amazon"),
   ("84:D6:D0", "Amazon"),
   ("A4:08:EA", "Amazon"),
   ("FC:65:DE", "Amazon"),
   ("34:8A:7B", "Samsung"),
   ("00:1E:E2", "Samsung"),
   ("08:FC:88", "Samsung"),
   ("24:4B:81", "Samsung"),
   ("50:01:BB", "Samsung"),
   ("78:AB:BB", "Samsung"),
   ("94:35:0A", "Samsung"),
   ("A8:7C:01", "Samsung"),
   ("BC:44:86", "Samsung"),
   ("CC:07:AB", "Samsung"),
   ("D0:22:BE", "Samsung"),
   ("EC:1F:72", "Samsung"),
   ("F8:04:2E", "Samsung"),
   ("00:1D:43", "Sony"),
   ("00:1E:A4", "Sony"),
   ("04:5D:4B", "Sony"),
   ("28:0D:FC", "Sony"),
   ("70:9E:29", "Sony"),
   ("78:84:3C", "Sony"),
   ("AC:64:DD", "Sony"),
   ("D8:D4:3C", "Sony"),
   ("FC:0F:E6", "Sony"),
   ("00:1A:2B", "Philips"),
   ("00:17:88", "Philips Hue"),
   ("EC:B5:FA", "Philips Hue"),
   ("00:09:B0", "Roku"),
   ("B0:A7:37", "Roku"),
   ("00:1D:C9", "Google"),
   ("00:1A:11", "Google"),
   ("3C:5A:B4", "Google"),
   ("54:60:09", "Google"),
   ("94:EB:2C", "Google"),
   ("F4:F5:D8", "Google"),
   ("F8:8F:CA", "Google"),
   ("20:DF:B9", "Google Nest"),
   ("64:16:66", "Google Nest"),
   ("D8:EB:46", "Google Nest"),
   ("2C:AA:8E", "Wyze")]

/-- network_discovery.py get_vendor_from_mac's argument normalisation:
mac.upper().replace("-", ":").replace(".", ":"). -/
def normalizeMacChars (m : List Char) : List Char :=
  ((m.map upperChar).map dashToColon).map dotToColon

/-- network_discovery.py get_vendor_from_mac: look the vendor up by the OUI,
the first three colon-separated octet fields of the normalised MAC. -/
def get_vendor_from_mac (mac : String) : Option String :=
  OUI_VENDORS.lookup ⟨joinC ':' ((splitOnC ':' (normalizeMacChars mac.data)).take 3)⟩

/-- The re.search of the interface header pattern at one position of the
line: the literal "Interface:" followed by whitespace and a digit-or-dot
group. -/
def matchIfaceAt (l : List Char) : Option (List Char) :=
  if "Interface:".data.isPrefixOf l then
    let r := l.drop 10
    if (r.takeWhile isPySpace).isEmpty then none
    else
      let d := (r.dropWhile isPySpace).takeWhile isDigitDotC
      if d.isEmpty then none else some d
  else none

/-- re.search of the interface header pattern: first matching position. -/
def searchIface : List Char → Option (List Char)
  | [] => none
  | c :: cs =>
    match matchIfaceAt (c :: cs) with
    | some d => some d
    | none => searchIface cs

/-- re.match of the ARP entry pattern
of parse_windows_arp against one (stripped) line.  The pattern's character
classes are pairwise disjoint with the whitespace separators and the MAC
group has fixed width 17, so the greedy left-to-right interpretation below is
the exact regex semantics.  Returns the captured IP and MAC groups. -/
def matchArpEntry (l : List Char) : Option (List Char × List Char) :=
  let r0 := l.dropWhile isPySpace
  let ip := r0.takeWhile isDigitDotC
  if ip.isEmpty then none
  else
    let r1 := r0.dropWhile isDigitDotC
    if (r1.takeWhile isPySpace).isEmpty then none
    else
      let r2 := r1.dropWhile isPySpace
      let mac := r2.take 17
      if mac.length = 17 && mac.all isHexDashC then
        let r3 := r2.drop 17
        if (r3.takeWhile isPySpace).isEmpty then none
        else
          let r4 := r3.dropWhile isPySpace
          if (r4.takeWhile isWordCharC).isEmpty then none else some (ip, mac)
      else none

/-- The broadcast/multicast MAC and broadcast/multicast IP filter of
parse_windows_arp, applied to the captured raw (dash-separated) MAC and the
captured IP. -/
def arpEntrySkipped (ip mac : List Char) : Bool :=
  let macLower := mac.map lowerChar
  macLower = "ff-ff-ff-ff-ff-ff".data ||
    "01-00-5e".data.isPrefixOf macLower ||
    "33-33".data.isPrefixOf macLower ||
    ".255".data.isSuffixOf ip ||
    ip = "255.255.255.255".data ||
    "224.".data.isPrefixOf ip ||
    "239.".data.isPrefixOf ip

/-- The device built by parse_windows_arp from one accepted entry: the MAC is
normalised to upper-case colon form, the vendor looked up from it. -/
def mkArpDevice (iface : Option String) (ip mac : List Char) : DiscoveredDevice :=
  let macN : String := ⟨(mac.map dashToColon).map upperChar⟩
  ⟨macN, ⟨ip⟩, none, get_vendor_from_mac macN, "arp", iface⟩

/-- The per-line loop of parse_windows_arp, carrying the current interface. -/
def parseArpLines (iface : Option String) : List (List Char) → List DiscoveredDevice
  | [] => []
  | line :: rest =>
    let l := pyStrip line
    if "Interface:".data.isPrefixOf l then
      parseArpLines
        (match searchIface l with
         | some d => some ⟨d⟩
         | none => iface) rest
    else
      match matchArpEntry l with
      | none => parseArpLines iface rest
      | some (ip, mac) =>
        if arpEntrySkipped ip mac then parseArpLines iface rest
        else mkArpDevice iface ip mac :: parseArpLines iface rest

/-- network_discovery.py parse_windows_arp: parse Windows "arp -a" output. -/
def parse_windows_arp (output : String) : List DiscoveredDevice :=
  parseArpLines none (splitOnC '\n' (pyStrip output.data))

/-! ## Predicates and sample data used by the theorem statements -/

/-- An upper-case hexadecimal digit or a colon: the character set of a MAC
address normalised by parse_windows_arp. -/
def isUpperHexColonC (c : Char) : Bool :=
  isDigitC c || (65 ≤ c.toNat && c.toNat ≤ 70) || c = ':'

/-- A two-character upper-case hexadecimal octet. -/
def isUpperHexPair (l : List Char) : Bool :=
  match l with
  | [a, b] =>
    (isDigitC a || (65 ≤ a.toNat && a.toNat ≤ 70)) &&
      (isDigitC b || (65 ≤ b.toNat && b.toNat ≤ 70))
  | _ => false

/-- Strict upper-case colon-separated MAC form: six two-digit upper-case
hexadecimal octets separated by colons. -/
def isColonMacForm (l : List Char) : Bool :=
  (splitOnC ':' l).length = 6 && (splitOnC ':' l).all isUpperHexPair

/-- Well-formedness of the edge store: every stored key is canonical, the
lexicographically smaller path first. -/
def edgesWF (g : GraphState) : Prop :=
  ∀ e ∈ g.edges, strLt e.1.2 e.1.1 = false

/-- A sample access-log row used to instantiate the sync theorems. -/
def demoRecord (sid p : String) (ts : Nat) : AccessRecord :=
  ⟨sid, p, p, .read, none, "Read", ts, true, false, [], false⟩

/-- A sample access log: session s1 touches a and b (a twice), session s2
touches a, b and c. -/
def demoRecords : List AccessRecord :=
  [demoRecord "s1" "a" 0, demoRecord "s1" "b" 1, demoRecord "s1" "a" 2,
   demoRecord "s2" "a" 3, demoRecord "s2" "b" 4, demoRecord "s2" "c" 5]

/-! ## Character-level lemmas -/

/-- Char.ofNat below the surrogate range round-trips through toNat. -/
theorem toNat_ofNat_small (n : Nat) (h : n < 55296) : (Char.ofNat n).toNat = n := by
  have hv : n.isValidChar := Or.inl h
  simp [Char.ofNat, hv, Char.ofNatAux, Char.toNat, UInt32.toNat, BitVec.toNat_ofNatLt]

/-- Characters with equal code points are equal. -/
theorem char_eq_of_toNat_eq {c d : Char} (h : c.toNat = d.toNat) : c = d :=
  Char.eq_of_val_eq (UInt32.toNat.inj h)

/-- Characters with distinct code points are distinct. -/
theorem char_ne_of_toNat_ne {c d : Char} (h : c.toNat ≠ d.toNat) : c ≠ d :=
  fun he => h (congrArg Char.toNat he)

/-- ASCII lowering is idempotent. -/
theorem lowerChar_idem (c : Char) : lowerChar (lowerChar c) = lowerChar c := by
  unfold lowerChar
  by_cases h : 65 ≤ c.toNat ∧ c.toNat ≤ 90
  · simp only [h, and_self, if_true]
    have h2 : (Char.ofNat (c.toNat + 32)).toNat = c.toNat + 32 :=
      toNat_ofNat_small _ (by omega)
    rw [if_neg (by omega)]
  · simp [h]

/-- Uppering after lowering is plain uppering. -/
theorem upperChar_lowerChar (c : Char) : upperChar (lowerChar c) = upperChar c := by
  unfold lowerChar upperChar
  by_cases h : 65 ≤ c.toNat ∧ c.toNat ≤ 90
  · simp only [h, and_self, if_true]
    have h2 : (Char.ofNat (c.toNat + 32)).toNat = c.toNat + 32 :=
      toNat_ofNat_small _ (by omega)
    rw [h2, if_pos (by omega), if_neg (by omega)]
    have h3 : c.toNat + 32 - 32 = c.toNat := by omega
    rw [h3, Char.ofNat_toNat]
  · simp [h]

/-- Lowering after uppering is plain lowering. -/
theorem lowerChar_upperChar (c : Char) : lowerChar (upperChar c) = lowerChar c := by
  unfold lowerChar upperChar
  by_cases h : 97 ≤ c.toNat ∧ c.toNat ≤ 122
  · simp only [h, and_self, if_true]
    have h2 : (Char.ofNat (c.toNat - 32)).toNat = c.toNat - 32 :=
      toNat_ofNat_small _ (by omega)
    rw [h2, if_pos (by omega), if_neg (by omega)]
    have h3 : c.toNat - 32 + 32 = c.toNat := by omega
    rw [h3, Char.ofNat_toNat]
  · simp [h]

/-- Lowering fixes whitespace characters. -/
theorem lowerChar_space {c : Char} (h : isPySpace c = true) : lowerChar c = c := by
  simp only [isPySpace, Bool.or_eq_true, decide_eq_true_eq] at h
  rcases h with ((((h | h) | h) | h) | h) | h <;> subst h <;> decide

/-! ## Lemmas on association-list lookups -/

/-- A successful lookup returns one of the stored values. -/
theorem lookup_mem_values {β : Type} (l : List (String × β)) (k : String) (v : β)
    (h : l.lookup k = some v) : v ∈ l.map Prod.snd := by
  induction l with
  | nil => simp [List.lookup] at h
  | cons hd tl ih =>
    rw [List.lookup] at h
    cases hk : k == hd.1
    · simp only [hk] at h
      simp only [List.map_cons, List.mem_cons]
      exact Or.inr (ih h)
    · simp only [hk] at h
      simp only [List.map_cons, List.mem_cons]
      exact Or.inl (Option.some.inj h).symm

/-- A successful lookup means the key is among the stored keys. -/
theorem lookup_mem_keys {β : Type} (l : List (String × β)) (k : String)
    (h : (l.lookup k).isSome) : k ∈ l.map Prod.fst := by
  induction l with
  | nil => simp [List.lookup] at h
  | cons hd tl ih =>
    rw [List.lookup] at h
    cases hk : k == hd.1
    · simp only [hk] at h
      simp only [List.map_cons, List.mem_cons]
      exact Or.inr (ih h)
    · simp only [List.map_cons, List.mem_cons]
      exact Or.inl (eq_of_beq hk)

/-! ## Lemmas on stripping and case mapping -/

/-- Stripping absorbs one leading whitespace character. -/
theorem pyStrip_cons_space {c : Char} (l : List Char) (h : isPySpace c = true) :
    pyStrip (c :: l) = pyStrip l := by
  unfold pyStrip
  rw [List.dropWhile_cons_of_pos h]

/-- Stripping absorbs one trailing whitespace character. -/
theorem pyStrip_append_space {c : Char} (l : List Char) (h : isPySpace c = true) :
    pyStrip (l ++ [c]) = pyStrip l := by
  unfold pyStrip
  rw [List.dropWhile_append]
  by_cases he : (l.dropWhile isPySpace).isEmpty
  · rw [if_pos he]
    rw [List.isEmpty_iff] at he
    rw [he]
    simp [List.dropWhile_cons_of_pos h]
  · rw [if_neg he]
    rw [List.reverse_append]
    simp only [List.reverse_cons, List.reverse_nil, List.nil_append,
      List.singleton_append]
    rw [List.dropWhile_cons_of_pos h]

/-- Lowering a whole character list is idempotent. -/
theorem map_lowerChar_idem (l : List Char) :
    (l.map lowerChar).map lowerChar = l.map lowerChar := by
  rw [List.map_map]
  exact List.map_congr_left (fun a _ => lowerChar_idem a)

/-- Lowering after uppering a whole character list is plain lowering. -/
theorem map_lowerChar_upperChar (l : List Char) :
    (l.map upperChar).map lowerChar = l.map lowerChar := by
  rw [List.map_map]
  exact List.map_congr_left (fun a _ => lowerChar_upperChar a)

/-! ## TailscaleSSH.resolve_machine -/

/-- The argument normalisation is invariant under lowering the argument. -/
theorem normMachineId_lowerStr (x : String) :
    normMachineId (lowerStr x) = normMachineId x := by
  unfold normMachineId lowerStr
  rw [String.data]
  exact congrArg (fun l => (⟨pyStrip l⟩ : String)) (map_lowerChar_idem x.data)

/-- The argument normalisation is invariant under uppering the argument. -/
theorem normMachineId_upperStr (x : String) :
    normMachineId (upperStr x) = normMachineId x := by
  unfold normMachineId upperStr
  rw [String.data]
  exact congrArg (fun l => (⟨pyStrip l⟩ : String)) (map_lowerChar_upperChar x.data)

/-- The argument normalisation absorbs a leading whitespace character. -/
theorem normMachineId_cons_space {c : Char} (x : String) (h : isPySpace c = true) :
    normMachineId ⟨c :: x.data⟩ = normMachineId x := by
  unfold normMachineId
  rw [String.data, List.map_cons, lowerChar_space h, pyStrip_cons_space _ h]

/-- The argument normalisation absorbs a trailing whitespace character. -/
theorem normMachineId_append_space {c : Char} (x : String) (h : isPySpace c = true) :
    normMachineId ⟨x.data ++ [c]⟩ = normMachineId x := by
  unfold normMachineId
  rw [String.data, List.map_append, List.map_singleton, lowerChar_space h,
    pyStrip_append_space _ h]

/-- Every successful resolution yields a TAILSCALE_MACHINES key. -/
theorem resolveCore_mem_keys (m y : String) (h : resolveCore m = some y) :
    y ∈ TAILSCALE_MACHINES.map Prod.fst := by
  unfold resolveCore at h
  cases halias : MACHINE_ALIASES.lookup m with
  | some v =>
    rw [halias] at h
    have hv := lookup_mem_values MACHINE_ALIASES m v halias
    have hy : y = v := (Option.some.inj h).symm
    subst hy
    simp only [MACHINE_ALIASES, List.map_cons, List.map_nil, List.mem_cons,
      List.not_mem_nil, or_false] at hv
    rcases hv with rfl | rfl | rfl | rfl | rfl | rfl <;> decide
  | none =>
    rw [halias] at h
    by_cases hdir : (TAILSCALE_MACHINES.lookup m).isSome
    · rw [if_pos hdir] at h
      have hy : y = m := (Option.some.inj h).symm
      subst hy
      exact lookup_mem_keys TAILSCALE_MACHINES y hdir
    · rw [if_neg hdir] at h
      rcases Option.map_eq_some'.mp h with ⟨p, hp, hp1⟩
      have hmem := List.mem_of_find?_eq_some hp
      subst hp1
      exact List.mem_map_of_mem Prod.fst hmem

/-- C9: TailscaleSSH.resolve_machine, for every input string, either returns
a key of TAILSCALE_MACHINES or raises ValueError (embedded as none); whenever
it succeeds it is idempotent; and it is insensitive to the case of its
argument and to surrounding whitespace. -/
theorem resolve_machine_spec : ∀ x y : String,
    (resolve_machine x = some y →
      y ∈ TAILSCALE_MACHINES.map Prod.fst ∧ resolve_machine y = some y) ∧
    resolve_machine (lowerStr x) = resolve_machine x ∧
    resolve_machine (upperStr x) = resolve_machine x ∧
    (∀ c : Char, isPySpace c = true →
      resolve_machine ⟨c :: x.data⟩ = resolve_machine x ∧
      resolve_machine ⟨x.data ++ [c]⟩ = resolve_machine x) := by
  intro x y
  refine ⟨?_, ?_, ?_, ?_⟩
  · intro h
    have hmem := resolveCore_mem_keys (normMachineId x) y h
    refine ⟨hmem, ?_⟩
    simp only [TAILSCALE_MACHINES, List.map_cons, List.map_nil, List.mem_cons,
      List.not_mem_nil, or_false] at hmem
    rcases hmem with rfl | rfl | rfl | rfl <;> decide
  · unfold resolve_machine
    rw [normMachineId_lowerStr]
  · unfold resolve_machine
    rw [normMachineId_upperStr]
  · intro c hc
    constructor
    · unfold resolve_machine
      rw [normMachineId_cons_space x hc]
    · unfold resolve_machine
      rw [normMachineId_append_space x hc]

/-- Witness for C9 at concrete inputs: " RIG " resolves to box-rig, which
resolves to itself. -/
theorem resolve_machine_spec_witness :
    resolve_machine "box-rig" = some "box-rig" ∧
    resolve_machine (upperStr "rig") = resolve_machine "rig" :=
  ⟨((resolve_machine_spec " RIG " "box-rig").1 (by decide)).2,
   (resolve_machine_spec "rig" "box-rig").2.2.1⟩

/-! ## DomoEnv._detect_machine -/

/-- C8 (amended): DomoEnv._detect_machine is total by construction and
follows a fixed precedence: a non-empty MACHINE_ID environment value is
returned verbatim with method env_var regardless of hostname, local IPs and
GPU; an unset or empty MACHINE_ID falls through to the hostname-pattern
match, then the IP match, then the GPU match (the GPU is consulted only when
detected and non-empty), and finally the unknown/fallback result. -/
theorem detect_machine_precedence :
    ∀ (env : Option String) (hn : String) (ips : List String) (gpu : Option String),
    (∀ v, env = some v → v ≠ "" →
      (detect_machine env hn ips gpu).machine_id = v ∧
      (detect_machine env hn ips gpu).detection_method = "env_var") ∧
    ((env = none ∨ env = some "") →
      detect_machine env hn ips gpu = detectNoEnv (lowerStr hn) ips gpu) ∧
    (∀ mid inv, findHostnameMatch (lowerStr hn) = some (mid, inv) →
      (detectNoEnv (lowerStr hn) ips gpu).machine_id = mid ∧
      (detectNoEnv (lowerStr hn) ips gpu).detection_method = "hostname") ∧
    (findHostnameMatch (lowerStr hn) = none →
      ∀ mid inv, findIpMatch ips = some (mid, inv) →
        (detectNoEnv (lowerStr hn) ips gpu).machine_id = mid ∧
        (detectNoEnv (lowerStr hn) ips gpu).detection_method = "ip_address") ∧
    (findHostnameMatch (lowerStr hn) = none → findIpMatch ips = none →
      ∀ g mid inv, gpu = some g → g ≠ "" → findGpuMatch g = some (mid, inv) →
        (detectNoEnv (lowerStr hn) ips gpu).machine_id = mid ∧
        (detectNoEnv (lowerStr hn) ips gpu).detection_method = "gpu") ∧
    (findHostnameMatch (lowerStr hn) = none → findIpMatch ips = none →
      (gpu = none ∨ gpu = some "" ∨ (∀ g, gpu = some g → findGpuMatch g = none)) →
      (detectNoEnv (lowerStr hn) ips gpu).machine_id = "unknown" ∧
      (detectNoEnv (lowerStr hn) ips gpu).detection_method = "fallback") := by
  intro env hn ips gpu
  refine ⟨?_, ?_, ?_, ?_, ?_, ?_⟩
  · intro v hv hne
    subst hv
    simp [detect_machine, hne]
  · intro henv
    rcases henv with rfl | rfl <;> simp [detect_machine]
  · intro mid inv hfind
    simp [detectNoEnv, hfind, infoOfInv]
  · intro hhost mid inv hip
    simp [detectNoEnv, hhost, hip, infoOfInv]
  · intro hhost hip g mid inv hg hne hgpu
    subst hg
    simp [detectNoEnv, hhost, hip, hne, hgpu, infoOfInv]
  · intro hhost hip hgpu
    rcases hgpu with rfl | rfl | hfn
    · simp [detectNoEnv, hhost, hip, fallbackInfo]
    · simp [detectNoEnv, hhost, hip, fallbackInfo]
    · cases gpu with
      | none => simp [detectNoEnv, hhost, hip, fallbackInfo]
      | some g =>
        by_cases hne : g = ""
        · subst hne
          simp [detectNoEnv, hhost, hip, fallbackInfo]
        · simp [detectNoEnv, hhost, hip, hne, hfn g rfl, fallbackInfo]

/-- C8 counterexample to the claim as stated: MACHINE_ID set to the empty
string is "set", yet detection falls through (Python's truthiness test treats
an empty environment value as unset), so the returned machine_id is not the
environment value and the method is not env_var. -/
theorem detect_machine_env_empty_cex :
    (detect_machine (some "") "plainhost" [] none).machine_id ≠ "" ∧
    (detect_machine (some "") "plainhost" [] none).detection_method ≠ "env_var" ∧
    (detect_machine (some "") "plainhost" [] none).detection_method = "fallback" := by
  decide

/-- Witness for C8 at a concrete input: a non-empty MACHINE_ID wins. -/
theorem detect_machine_precedence_witness :
    (detect_machine (some "box-rig") "HOST" [] none).machine_id = "box-rig" ∧
    (detect_machine (some "box-rig") "HOST" [] none).detection_method = "env_var" :=
  (detect_machine_precedence (some "box-rig") "HOST" [] none).1 "box-rig" rfl
    (by decide)

/-! ## Path normalisation -/

/-- Backslash substitution is idempotent on characters. -/
theorem substSlash_idem (c : Char) : substSlash (substSlash c) = substSlash c := by
  by_cases h : c = '\\'
  · subst h; decide
  · unfold substSlash
    rw [if_neg h, if_neg h]

/-- Backslash substitution never produces a backslash. -/
theorem substSlash_ne_backslash (c : Char) : substSlash c ≠ '\\' := by
  by_cases h : c = '\\'
  · subst h; decide
  · unfold substSlash
    rw [if_neg h]
    exact h

/-- C6: path normalisation is idempotent; its output never contains a
backslash; it changes nothing but backslashes (case in particular is
preserved); it rewrites UNC prefixes; and resolving an already-normalised
absolute path returns the same string. -/
theorem normalizePath_spec :
    ∀ p : String,
    normalizePath (normalizePath p) = normalizePath p ∧
    '\\' ∉ (normalizePath p).data ∧
    (∀ c : Char, c ≠ '\\' → substSlash c = c) ∧
    normalizePath "\\\\server\\share" = "//server/share" ∧
    ('\\' ∉ p.data → isAbsolutePath p = true →
      (PathResolver.resolve p none).normalizedPath = some p ∧
      (PathResolver.resolve p none).absolutePath = some p) := by
  intro p
  refine ⟨?_, ?_, ?_, by decide, ?_⟩
  · unfold normalizePath
    rw [String.data, List.map_map]
    exact congrArg (fun l => (⟨l⟩ : String))
      (List.map_congr_left (fun a _ => substSlash_idem a))
  · unfold normalizePath
    rw [String.data]
    intro hmem
    rcases List.mem_map.mp hmem with ⟨c, _, hc⟩
    exact substSlash_ne_backslash c hc
  · intro c hc
    unfold substSlash
    rw [if_neg hc]
  · intro hslash habs
    have hne : p ≠ "" := by
      intro hp
      subst hp
      simp [isAbsolutePath] at habs
    have hnorm : normalizePath p = p := by
      unfold normalizePath
      have : p.data.map substSlash = p.data := by
        have h1 : p.data.map substSlash = p.data.map id :=
          List.map_congr_left (fun a ha => by
            have hne2 : a ≠ '\\' := by
              intro he
              rw [he] at ha
              exact hslash ha
            unfold substSlash
            rw [if_neg hne2]
            rfl)
        rw [h1, List.map_id]
      rw [this]
    unfold PathResolver.resolve
    rw [if_neg hne]
    simp only [hnorm, habs, if_true]
    exact ⟨trivial, trivial⟩

/-- Witness for C6 at a concrete input: an already-normalised absolute path
resolves to itself. -/
theorem normalizePath_spec_witness :
    (PathResolver.resolve "/usr/lib" none).normalizedPath = some "/usr/lib" ∧
    (PathResolver.resolve "/usr/lib" none).absolutePath = some "/usr/lib" :=
  (normalizePath_spec "/usr/lib").2.2.2.2 (by decide) (by decide)

/-! ## Extraction error handling -/

/-- C1: the core extraction operations are total functions (never an error by
construction) and degrade to the empty/no-op result on every malformed,
missing or unsupported input: unknown tool names, a direct-path tool without
a path field, the shell tool without a command field, an empty path, a
command matching no table pattern, empty command text and empty tool
output. -/
theorem extraction_degrades_empty :
    (∀ (tn : String) (inp : List (String × String)) (out : Option ToolOutput)
        (cwd : Option String),
      directToolMode tn = none → tn ≠ "Glob" → tn ≠ "Grep" → tn ≠ "Bash" →
      Extractor.extract tn inp out cwd = emptyAccess) ∧
    (∀ (tn : String) (inp : List (String × String)) (out : Option ToolOutput)
        (cwd : Option String) (m : AccessMode),
      directToolMode tn = some m → lookupInput "path" inp = none →
      Extractor.extract tn inp out cwd = emptyAccess) ∧
    (∀ (inp : List (String × String)) (out : Option ToolOutput)
        (cwd : Option String),
      lookupInput "command" inp = none →
      Extractor.extract "Bash" inp out cwd = emptyAccess) ∧
    (∀ cwd : Option String, PathResolver.resolve "" cwd = emptyResolve) ∧
    (∀ cmd : String, ruleOf (wordsOf cmd) = none → CommandPathParser.parse cmd = []) ∧
    CommandPathParser.parse "" = [] ∧
    OutputListParser.parse "" = [] ∧
    OutputMatchParser.parse "" = [] := by
  refine ⟨?_, ?_, ?_, ?_, ?_, by decide, by decide, by decide⟩
  · intro tn inp out cwd hdir hglob hgrep hbash
    unfold Extractor.extract
    rw [hdir]
    rw [if_neg (by simp [hglob, hgrep]), if_neg hbash]
  · intro tn inp out cwd m hdir hpath
    unfold Extractor.extract
    rw [hdir, hpath]
  · intro inp out cwd hcmd
    unfold Extractor.extract extractShell
    rw [hcmd]
    rfl
  · intro cwd
    unfold PathResolver.resolve
    rw [if_pos rfl]
  · intro cmd hrule
    unfold CommandPathParser.parse
    rw [hrule]

/-- Witness for C1 at concrete inputs: an unrelated tool name, a shell tool
call without a command field, and a no-match command. -/
theorem extraction_degrades_empty_witness :
    Extractor.extract "TodoWrite" [] none none = emptyAccess ∧
    Extractor.extract "Bash" [("desc", "x")] none none = emptyAccess ∧
    CommandPathParser.parse "echo hi | grep x" = [] ∧
    PathResolver.resolve "" (some "/w") = emptyResolve :=
  ⟨extraction_degrades_empty.1 "TodoWrite" [] none none (by decide) (by decide)
      (by decide) (by decide),
   extraction_degrades_empty.2.2.1 [("desc", "x")] none none (by decide),
   extraction_degrades_empty.2.2.2.2.1 "echo hi | grep x" (by decide),
   extraction_degrades_empty.2.2.2.1 (some "/w")⟩

/-! ## Command-shape table roles -/

/-- A command with no matching table pattern parses to the empty list. -/
theorem parse_eq_none (cmd : String) (hr : ruleOf (wordsOf cmd) = none) :
    CommandPathParser.parse cmd = [] := by
  unfold CommandPathParser.parse
  rw [hr]

/-- A command matching a table pattern parses to that rule's entries. -/
theorem parse_eq_rule (cmd : String) (op : CmdOp) (args : List String)
    (hr : ruleOf (wordsOf cmd) = some (op, args)) :
    CommandPathParser.parse cmd = buildEntries op args := by
  unfold CommandPathParser.parse
  rw [hr]

/-- Membership in a path-entry map fixes the operation. -/
theorem mem_entry_map_op {op : CmdOp} {l : List String} {e : CmdEntry}
    (h : e ∈ l.map (fun p => (⟨p, op, true, false⟩ : CmdEntry))) :
    e.operation = op := by
  rcases List.mem_map.mp h with ⟨p, -, hp⟩
  rw [← hp]

/-- Every entry built for a matched rule carries that rule's operation. -/
theorem buildEntries_op (op : CmdOp) (args : List String) (e : CmdEntry)
    (h : e ∈ buildEntries op args) : e.operation = op := by
  cases op <;> simp only [buildEntries] at h
  case read => exact mem_entry_map_op h
  case list => exact mem_entry_map_op h
  case delete => exact mem_entry_map_op h
  case create => exact mem_entry_map_op h
  case stage => exact mem_entry_map_op h
  case copy =>
    rcases hn : nonFlagArgs args with _ | ⟨s, rest2⟩
    · rw [hn] at h; simp at h
    · rcases rest2 with _ | ⟨d, t⟩
      · rw [hn] at h; simp at h
      · rw [hn] at h
        simp only [List.mem_cons, List.not_mem_nil, or_false] at h
        rcases h with rfl | rfl <;> rfl
  case move =>
    rcases hn : nonFlagArgs args with _ | ⟨s, rest2⟩
    · rw [hn] at h; simp at h
    · rcases rest2 with _ | ⟨d, t⟩
      · rw [hn] at h; simp at h
      · rw [hn] at h
        simp only [List.mem_cons, List.not_mem_nil, or_false] at h
        rcases h with rfl | rfl <;> rfl
  case execute =>
    rcases hn : nonFlagArgs args with _ | ⟨s, rest2⟩
    · rw [hn] at h; simp at h
    · rw [hn] at h
      simp only [List.mem_cons, List.not_mem_nil, or_false] at h
      rcases h with rfl <;> rfl
  case modify =>
    rcases hn : nonFlagArgs args with _ | ⟨s, rest2⟩
    · rw [hn] at h; simp at h
    · rw [hn] at h
      exact mem_entry_map_op h

/-- C4: parse "cp a b" returns exactly two copy entries, source then
destination; and in general, whenever a parsed command yields at least two
entries whose operation is copy or move, the result is exactly a
source-marked-only entry followed by a destination-marked-only entry of the
same operation. -/
theorem commandPathParser_roles :
    CommandPathParser.parse "cp a b" =
      [⟨"a", .copy, true, false⟩, ⟨"b", .copy, false, true⟩] ∧
    ∀ (cmd : String) (e1 e2 : CmdEntry) (rest : List CmdEntry),
      CommandPathParser.parse cmd = e1 :: e2 :: rest →
      (e1.operation = .copy ∨ e1.operation = .move) →
      e1.isSource = true ∧ e1.isDestination = false ∧
      e2.operation = e1.operation ∧ e2.isSource = false ∧
      e2.isDestination = true ∧ rest = [] := by
  refine ⟨by decide, ?_⟩
  intro cmd e1 e2 rest hp hop
  cases hr : ruleOf (wordsOf cmd) with
  | none =>
    rw [parse_eq_none cmd hr] at hp
    exact absurd hp (by simp)
  | some pr =>
    obtain ⟨op, args⟩ := pr
    rw [parse_eq_rule cmd op args hr] at hp
    have h1 : e1 ∈ buildEntries op args := by
      rw [hp]; exact List.mem_cons_self _ _
    have hope1 := buildEntries_op op args e1 h1
    have hop2 : op = CmdOp.copy ∨ op = CmdOp.move := by
      rcases hop with h | h
      · exact Or.inl (hope1.symm.trans h)
      · exact Or.inr (hope1.symm.trans h)
    rcases hop2 with rfl | rfl <;>
      (simp only [buildEntries] at hp
       rcases hn : nonFlagArgs args with _ | ⟨s, _ | ⟨d, t⟩⟩ <;> rw [hn] at hp
       · simp at hp
       · simp at hp
       · simp only [List.cons.injEq, and_true] at hp
         obtain ⟨rfl, rfl, rfl⟩ := hp
         exact ⟨rfl, rfl, rfl, rfl, rfl, rfl⟩)

/-- Witness for C4 at a concrete input: "mv old.py new.py" yields the move
pair, source first. -/
theorem commandPathParser_roles_witness :
    (⟨"old.py", CmdOp.move, true, false⟩ : CmdEntry).isSource = true ∧
    (⟨"new.py", CmdOp.move, false, true⟩ : CmdEntry).isDestination = true := by
  have h := commandPathParser_roles.2 "mv old.py new.py"
    ⟨"old.py", .move, true, false⟩ ⟨"new.py", .move, false, true⟩ []
    (by decide) (Or.inr rfl)
  exact ⟨h.1, h.2.2.2.2.1⟩

/-! ## Grep-style match lines -/

/-- C5: the grep line "main.py:10:def main():" parses to exactly one match
with file main.py, line 10 and content "def main():"; in general, for a
non-drive path field, an integer second field becomes the line number with
the remaining fields rejoined on colons (truncated to 200 characters) as
content, and a non-integer second field makes the whole remainder the
content with no line number. -/
theorem outputMatchParser_grep_line :
    OutputMatchParser.parse "main.py:10:def main():" =
      [⟨"main.py", some 10, "def main():"⟩] ∧
    ∀ (path nf : List Char) (content : List (List Char)),
      path ≠ [] →
      ¬(path.length = 1 ∧ (path.head?.map Char.isAlpha).getD false) →
      (∀ n : Nat, parseNatField nf = some n →
        parseMatchFields (path :: nf :: content) =
          some ⟨⟨path⟩, some n, ⟨(joinC ':' content).take 200⟩⟩) ∧
      (parseNatField nf = none →
        parseMatchFields (path :: nf :: content) =
          some ⟨⟨path⟩, none, ⟨(joinC ':' (nf :: content)).take 200⟩⟩) := by
  refine ⟨by decide, ?_⟩
  intro path nf content hne hdrive
  constructor
  · intro n hint
    simp only [parseMatchFields]
    rw [if_neg hdrive]
    simp only [if_neg hne, hint]
  · intro hint
    simp only [parseMatchFields]
    rw [if_neg hdrive]
    simp only [if_neg hne, hint]

/-- Witness for C5 at the concrete field split of the scenario line. -/
theorem outputMatchParser_grep_line_witness :
    parseMatchFields ["main.py".data, "10".data, "def main()".data, []] =
      some ⟨"main.py", some 10, "def main():"⟩ := by
  have h := (outputMatchParser_grep_line.2 "main.py".data "10".data
    ["def main()".data, []] (by decide) (by decide)).1 10 (by decide)
  exact h.trans (by decide)

/-! ## Canonical co-access edges -/

/-- Lexicographic strict order is asymmetric. -/
theorem lexLt_asymm : ∀ {x y : List Char}, lexLt x y = true → lexLt y x = false := by
  intro x
  induction x with
  | nil =>
    intro y h
    cases y with
    | nil => simp [lexLt] at h
    | cons b bs => simp [lexLt]
  | cons a as ih =>
    intro y h
    cases y with
    | nil => simp [lexLt] at h
    | cons b bs =>
      unfold lexLt at h ⊢
      by_cases hab : a.toNat < b.toNat
      · rw [if_neg (by omega), if_pos hab]
      · rw [if_neg hab] at h
        by_cases hba : b.toNat < a.toNat
        · rw [if_pos hba] at h
          exact absurd h (by simp)
        · rw [if_neg hba] at h
          rw [if_neg hba, if_neg hab]
          exact ih h

/-- Two lists neither of which is lexicographically below the other are
equal. -/
theorem lexLt_total_eq : ∀ {x y : List Char},
    lexLt x y = false → lexLt y x = false → x = y := by
  intro x
  induction x with
  | nil =>
    intro y h1 h2
    cases y with
    | nil => rfl
    | cons b bs => simp [lexLt] at h1
  | cons a as ih =>
    intro y h1 h2
    cases y with
    | nil => simp [lexLt] at h2
    | cons b bs =>
      unfold lexLt at h1 h2
      by_cases hab : a.toNat < b.toNat
      · rw [if_pos hab] at h1
        exact absurd h1 (by simp)
      · by_cases hba : b.toNat < a.toNat
        · rw [if_pos hba] at h2
          exact absurd h2 (by simp)
        · rw [if_neg hab, if_neg hba] at h1
          rw [if_neg hba, if_neg hab] at h2
          have hc : a = b := char_eq_of_toNat_eq (by omega)
          rw [hc, ih h1 h2]

/-- Strings neither of which is below the other are equal. -/
theorem strLt_total_eq {a b : String} (h1 : strLt a b = false)
    (h2 : strLt b a = false) : a = b := by
  have h3 : a.data = b.data := lexLt_total_eq h1 h2
  cases a
  cases b
  exact congrArg String.mk h3

/-- The canonical pair is symmetric in its arguments. -/
theorem canonPair_comm (a b : String) : canonPair a b = canonPair b a := by
  unfold canonPair
  by_cases hba : strLt b a = true
  · have hf : strLt a b = false := lexLt_asymm hba
    rw [if_pos hba, if_neg (by simp [hf])]
  · rw [if_neg hba]
    by_cases hab : strLt a b = true
    · rw [if_pos hab]
    · rw [if_neg hab]
      rw [strLt_total_eq (Bool.eq_false_iff.mpr hab) (Bool.eq_false_iff.mpr hba)]

/-- The canonical pair is canonically ordered: its second component is never
below its first. -/
theorem canonPair_ordered (a b : String) :
    strLt (canonPair a b).2 (canonPair a b).1 = false := by
  unfold canonPair
  by_cases hba : strLt b a = true
  · rw [if_pos hba]
    exact lexLt_asymm hba
  · rw [if_neg hba]
    exact Bool.eq_false_iff.mpr hba

/-- Keys present after an edge bump are the old keys plus the bumped key. -/
theorem bumpEdge_keys (key : String × String)
    (es : List ((String × String) × Nat)) (e : (String × String) × Nat)
    (h : e ∈ bumpEdge key es) : e.1 = key ∨ e.1 ∈ es.map Prod.fst := by
  induction es with
  | nil =>
    simp only [bumpEdge, List.mem_singleton] at h
    rw [h]
    exact Or.inl rfl
  | cons hd tl ih =>
    obtain ⟨k, n⟩ := hd
    simp only [bumpEdge] at h
    by_cases hk : k = key
    · rw [if_pos hk] at h
      rcases List.mem_cons.mp h with rfl | hmem
      · exact Or.inl hk
      · right
        rw [List.map_cons]
        exact List.mem_cons_of_mem _ (List.mem_map_of_mem Prod.fst hmem)
    · rw [if_neg hk] at h
      rcases List.mem_cons.mp h with rfl | hmem
      · right
        rw [List.map_cons]
        exact List.mem_cons_self _ _
      · rcases ih hmem with h2 | h2
        · exact Or.inl h2
        · right
          rw [List.map_cons]
          exact List.mem_cons_of_mem _ h2

/-- C3: upsertCoAccess is symmetric in its two paths (one identical stored
edge), preserves the smaller-path-first canonical-key invariant (so the
store never holds both orderings of a distinct pair), and two upserts of the
same pair starting from the empty graph (one per session, across two
sessions) give coAccessCount 2. -/
theorem upsertCoAccess_canonical :
    ∀ (a b : String) (g : GraphState),
    upsertCoAccess a b g = upsertCoAccess b a g ∧
    (edgesWF g → edgesWF (upsertCoAccess a b g)) ∧
    (edgesWF g → ∀ p q : String, p ≠ q →
      ¬((p, q) ∈ g.edges.map Prod.fst ∧ (q, p) ∈ g.edges.map Prod.fst)) ∧
    coAccessCount (upsertCoAccess a b (upsertCoAccess a b emptyGraphState)) a b = 2 := by
  intro a b g
  refine ⟨?_, ?_, ?_, ?_⟩
  · unfold upsertCoAccess
    rw [canonPair_comm]
  · intro hwf
    intro e he
    unfold upsertCoAccess at he
    rcases bumpEdge_keys (canonPair a b) g.edges e he with h1 | h1
    · rw [h1]
      exact canonPair_ordered a b
    · rcases List.mem_map.mp h1 with ⟨e2, he2, hfst⟩
      rw [← hfst]
      exact hwf e2 he2
  · intro hwf p q hpq ⟨hm1, hm2⟩
    rcases List.mem_map.mp hm1 with ⟨e1, he1, hf1⟩
    rcases List.mem_map.mp hm2 with ⟨e2, he2, hf2⟩
    have hw1 := hwf e1 he1
    have hw2 := hwf e2 he2
    rw [hf1] at hw1
    rw [hf2] at hw2
    exact hpq (strLt_total_eq hw2 hw1)
  · simp only [upsertCoAccess, emptyGraphState, bumpEdge, coAccessCount,
      List.find?, if_pos rfl]
    simp

/-- Witness for C3: the well-formedness preservation instantiated on the
empty store. -/
theorem upsertCoAccess_canonical_witness :
    edgesWF (upsertCoAccess "b" "a" emptyGraphState) :=
  (upsertCoAccess_canonical "b" "a" emptyGraphState).2.1
    (by intro e he; simp [emptyGraphState] at he)

/-! ## Atomic session marking -/

/-- C7: a failed graph write leaves the whole state untouched (the session
stays retriable, never half-synced); a successful sync marks exactly the
session's rows in one batch: marking changes no field other than the synced
flag, sets the flag exactly for the session's rows, fixes rows of other
sessions, and is idempotent (each flag is flipped false-to-true at most
once). -/
theorem sync_marking_atomic :
    ∀ (sid : String) (ts : Nat) (st : SyncState),
    GraphSync.syncSession false sid ts st = st ∧
    (GraphSync.syncSession true sid ts st).records = markAll sid st.records ∧
    (∀ r : AccessRecord,
      markOne sid r = { r with syncedToGraph := (markOne sid r).syncedToGraph } ∧
      ((markOne sid r).syncedToGraph = true ↔
        (r.syncedToGraph = true ∨ r.sessionId = sid)) ∧
      (r.sessionId ≠ sid → markOne sid r = r)) ∧
    markAll sid (markAll sid st.records) = markAll sid st.records := by
  intro sid ts st
  refine ⟨rfl, rfl, ?_, ?_⟩
  · intro r
    refine ⟨?_, ?_, ?_⟩
    · by_cases hs : r.sessionId = sid <;> simp [markOne, hs]
    · unfold markOne
      by_cases hs : r.sessionId = sid
      · rw [if_pos hs]
        simp [hs]
      · rw [if_neg hs]
        simp [hs]
    · intro hs
      unfold markOne
      rw [if_neg hs]
  · unfold markAll
    rw [List.map_map]
    refine List.map_congr_left (fun r _ => ?_)
    show markOne sid (markOne sid r) = markOne sid r
    by_cases hs : r.sessionId = sid <;> simp [markOne, hs]

/-- Witness for C7: a row of another session is untouched by marking. -/
theorem sync_marking_atomic_witness :
    markOne "s1" (demoRecord "s2" "x" 0) = demoRecord "s2" "x" 0 :=
  ((sync_marking_atomic "s1" 0 ⟨emptyGraphState, []⟩).2.2.1
    (demoRecord "s2" "x" 0)).2.2 (by decide)

/-! ## Co-access counting per session -/

/-- Marking one session's rows synced does not change another session's
unsynced rows. -/
theorem unsyncedOf_markAll_ne (sid1 sid2 : String) (recs : List AccessRecord)
    (hne : sid1 ≠ sid2) :
    unsyncedOf sid2 (markAll sid1 recs) = unsyncedOf sid2 recs := by
  induction recs with
  | nil => rfl
  | cons r t ih =>
    have hmark : markAll sid1 (r :: t) = markOne sid1 r :: markAll sid1 t := rfl
    rw [hmark]
    unfold unsyncedOf at ih ⊢
    rw [List.filter_cons, List.filter_cons]
    by_cases hs : r.sessionId = sid1
    · have h1 : markOne sid1 r = { r with syncedToGraph := true } := by
        unfold markOne
        rw [if_pos hs]
      have hrs : (r.sessionId = sid2) = False :=
        eq_false (fun h => hne (hs.symm.trans h))
      rw [h1]
      simp only [hrs, decide_False, Bool.false_and, Bool.false_eq_true, if_false]
      exact ih
    · have h1 : markOne sid1 r = r := by
        unfold markOne
        rw [if_neg hs]
      rw [h1]
      by_cases hb : (decide (r.sessionId = sid2) && !r.syncedToGraph) = true
      · rw [if_pos hb, if_pos hb, ih]
      · rw [if_neg hb, if_neg hb, ih]

/-- The edge store of a fold of co-access upserts is the fold of edge
bumps. -/
theorem foldl_upsert_edges (ps : List (String × String)) (g : GraphState) :
    (ps.foldl (fun g2 pr => upsertCoAccess pr.1 pr.2 g2) g).edges =
      ps.foldl (fun es pr => bumpEdge (canonPair pr.1 pr.2) es) g.edges := by
  induction ps generalizing g with
  | nil => rfl
  | cons p t ih =>
    rw [List.foldl_cons, List.foldl_cons, ih]
    rfl

/-- The edge store after a session sync: one bump per unordered pair of the
session's unique paths. -/
theorem syncGraph_edges (sid : String) (recs : List AccessRecord) (ts : Nat)
    (g : GraphState) :
    (syncGraph sid recs ts g).edges =
      (allPairs (uniqueSessionPaths sid recs)).foldl
        (fun es pr => bumpEdge (canonPair pr.1 pr.2) es) g.edges := by
  unfold syncGraph
  rw [foldl_upsert_edges]

/-- C2: for any access log where session one's unique unsynced paths are
exactly a and b and session two's are exactly a, b and c (no matter how many
tool calls touched each file), syncing both sessions from the empty graph
gives co-access counts 2 for the pair a-b and 1 for a-c and b-c: each file
pair is counted once per session. -/
theorem syncSession_coaccess_counts :
    ∀ (recs : List AccessRecord) (sid1 sid2 : String) (ts1 ts2 : Nat),
    sid1 ≠ sid2 →
    uniqueSessionPaths sid1 recs = ["a", "b"] →
    uniqueSessionPaths sid2 recs = ["a", "b", "c"] →
    coAccessCount (GraphSync.syncSession true sid2 ts2
      (GraphSync.syncSession true sid1 ts1 ⟨emptyGraphState, recs⟩)).graph "a" "b" = 2 ∧
    coAccessCount (GraphSync.syncSession true sid2 ts2
      (GraphSync.syncSession true sid1 ts1 ⟨emptyGraphState, recs⟩)).graph "a" "c" = 1 ∧
    coAccessCount (GraphSync.syncSession true sid2 ts2
      (GraphSync.syncSession true sid1 ts1 ⟨emptyGraphState, recs⟩)).graph "b" "c" = 1 := by
  intro recs sid1 sid2 ts1 ts2 hne h1 h2
  have hu2 : uniqueSessionPaths sid2 (markAll sid1 recs) = ["a", "b", "c"] := by
    unfold uniqueSessionPaths
    rw [unsyncedOf_markAll_ne sid1 sid2 recs hne]
    exact h2
  have hE : (GraphSync.syncSession true sid2 ts2
      (GraphSync.syncSession true sid1 ts1 ⟨emptyGraphState, recs⟩)).graph.edges =
      (allPairs ["a", "b", "c"]).foldl
        (fun es pr => bumpEdge (canonPair pr.1 pr.2) es)
        ((allPairs ["a", "b"]).foldl
          (fun es pr => bumpEdge (canonPair pr.1 pr.2) es) emptyGraphState.edges) := by
    show (syncGraph sid2 (markAll sid1 recs) ts2
      (syncGraph sid1 recs ts1 emptyGraphState)).edges = _
    rw [syncGraph_edges, hu2, syncGraph_edges, h1]
  refine ⟨?_, ?_, ?_⟩ <;>
    (simp only [coAccessCount]
     rw [hE]
     decide)

/-- Witness for C2: the sample access log, in which session s1 touches a
twice and b once and session s2 touches a, b and c. -/
theorem syncSession_coaccess_counts_witness :
    uniqueSessionPaths "s1" demoRecords = ["a", "b"] ∧
    uniqueSessionPaths "s2" demoRecords = ["a", "b", "c"] ∧
    coAccessCount (GraphSync.syncSession true "s2" 1
      (GraphSync.syncSession true "s1" 0 ⟨emptyGraphState, demoRecords⟩)).graph "a" "b" = 2 ∧
    coAccessCount (GraphSync.syncSession true "s2" 1
      (GraphSync.syncSession true "s1" 0 ⟨emptyGraphState, demoRecords⟩)).graph "a" "c" = 1 ∧
    coAccessCount (GraphSync.syncSession true "s2" 1
      (GraphSync.syncSession true "s1" 0 ⟨emptyGraphState, demoRecords⟩)).graph "b" "c" = 1 :=
  ⟨by decide, by decide,
   syncSession_coaccess_counts demoRecords "s1" "s2" 0 1 (by decide) (by decide)
     (by decide)⟩

/-! ## Windows ARP parsing invariants -/

/-- Dash substitution fixes non-dash characters. -/
theorem dashToColon_eq_self {c : Char} (h : c.toNat ≠ 45) : dashToColon c = c := by
  unfold dashToColon
  rw [if_neg (char_ne_of_toNat_ne (by simpa using h))]

/-- Colon-to-dash substitution fixes non-colon characters. -/
theorem colonToDash_eq_self {c : Char} (h : c.toNat ≠ 58) : colonToDash c = c := by
  unfold colonToDash
  rw [if_neg (char_ne_of_toNat_ne (by simpa using h))]

/-- Uppering fixes characters outside the lowercase range. -/
theorem upperChar_eq_self {c : Char} (h : ¬(97 ≤ c.toNat ∧ c.toNat ≤ 122)) :
    upperChar c = c := by
  unfold upperChar
  rw [if_neg h]

/-- Lowering fixes characters outside the uppercase range. -/
theorem lowerChar_eq_self {c : Char} (h : ¬(65 ≤ c.toNat ∧ c.toNat ≤ 90)) :
    lowerChar c = c := by
  unfold lowerChar
  rw [if_neg h]

/-- The code point of an uppered lowercase character. -/
theorem upperChar_toNat {c : Char} (h : 97 ≤ c.toNat ∧ c.toNat ≤ 122) :
    (upperChar c).toNat = c.toNat - 32 := by
  unfold upperChar
  rw [if_pos h]
  exact toNat_ofNat_small _ (by omega)

/-- The code point of a lowered uppercase character. -/
theorem lowerChar_toNat {c : Char} (h : 65 ≤ c.toNat ∧ c.toNat ≤ 90) :
    (lowerChar c).toNat = c.toNat + 32 := by
  unfold lowerChar
  rw [if_pos h]
  exact toNat_ofNat_small _ (by omega)

/-- Case split on the MAC character class. -/
theorem hexdash_cases {c : Char} (h : isHexDashC c = true) :
    (48 ≤ c.toNat ∧ c.toNat ≤ 57) ∨ (97 ≤ c.toNat ∧ c.toNat ≤ 102) ∨
      (65 ≤ c.toNat ∧ c.toNat ≤ 70) ∨ c.toNat = 45 := by
  simp only [isHexDashC, isDigitC, Bool.or_eq_true, Bool.and_eq_true,
    decide_eq_true_eq] at h
  rcases h with ((⟨h1, h2⟩ | ⟨h1, h2⟩) | ⟨h1, h2⟩) | h1
  · exact Or.inl ⟨h1, h2⟩
  · exact Or.inr (Or.inl ⟨h1, h2⟩)
  · exact Or.inr (Or.inr (Or.inl ⟨h1, h2⟩))
  · subst h1
    exact Or.inr (Or.inr (Or.inr rfl))

/-- Normalising one MAC character lands in the upper-hex-or-colon set. -/
theorem hexdash_upper_charset {c : Char} (h : isHexDashC c = true) :
    isUpperHexColonC (upperChar (dashToColon c)) = true := by
  rcases hexdash_cases h with h1 | h1 | h1 | h1
  · rw [dashToColon_eq_self (by omega), upperChar_eq_self (by omega)]
    simp only [isUpperHexColonC, isDigitC, Bool.or_eq_true, Bool.and_eq_true,
      decide_eq_true_eq]
    exact Or.inl (Or.inl ⟨by omega, by omega⟩)
  · rw [dashToColon_eq_self (by omega)]
    have h2 := upperChar_toNat (c := c) (by omega)
    simp only [isUpperHexColonC, isDigitC, Bool.or_eq_true, Bool.and_eq_true,
      decide_eq_true_eq]
    exact Or.inl (Or.inr ⟨by omega, by omega⟩)
  · rw [dashToColon_eq_self (by omega), upperChar_eq_self (by omega)]
    simp only [isUpperHexColonC, isDigitC, Bool.or_eq_true, Bool.and_eq_true,
      decide_eq_true_eq]
    exact Or.inl (Or.inr ⟨by omega, by omega⟩)
  · have hc : c = '-' := char_eq_of_toNat_eq (by simpa using h1)
    subst hc
    decide

/-- Round trip of one MAC character: colon-to-dash after lowering the
normalised character is plain lowering of the raw character. -/
theorem hexdash_transport {c : Char} (h : isHexDashC c = true) :
    colonToDash (lowerChar (upperChar (dashToColon c))) = lowerChar c := by
  rcases hexdash_cases h with h1 | h1 | h1 | h1
  · rw [dashToColon_eq_self (by omega), lowerChar_upperChar,
      lowerChar_eq_self (by omega), colonToDash_eq_self (by omega)]
  · rw [dashToColon_eq_self (by omega), lowerChar_upperChar,
      lowerChar_eq_self (by omega), colonToDash_eq_self (by omega)]
  · rw [dashToColon_eq_self (by omega), lowerChar_upperChar]
    have h2 := lowerChar_toNat (c := c) (by omega)
    rw [colonToDash_eq_self (by omega)]
  · have hc : c = '-' := char_eq_of_toNat_eq (by simpa using h1)
    subst hc
    decide

/-- Transport of a whole normalised MAC back to the lowered raw MAC. -/
theorem mac_transport (mac : List Char) (hall : mac.all isHexDashC = true) :
    ((mac.map dashToColon).map upperChar).map (fun c => colonToDash (lowerChar c)) =
      mac.map lowerChar := by
  rw [List.map_map, List.map_map]
  exact List.map_congr_left
    (fun c hc => hexdash_transport (List.all_eq_true.mp hall c hc))

/-- A successful ARP entry match certifies the MAC group's character
class. -/
theorem matchArpEntry_mac {l ip mac : List Char}
    (h : matchArpEntry l = some (ip, mac)) : mac.all isHexDashC = true := by
  simp only [matchArpEntry] at h
  split at h
  · exact absurd h (by simp)
  · split at h
    · exact absurd h (by simp)
    · split at h
      · split at h
        · exact absurd h (by simp)
        · split at h
          · exact absurd h (by simp)
          · rename_i hcond hw1 hw2
            obtain ⟨h1, h2⟩ := Prod.mk.inj (Option.some.inj h)
            rw [← h2]
            simp only [Bool.and_eq_true] at hcond
            exact hcond.2
      · exact absurd h (by simp)

/-- Every device parse_windows_arp emits comes from an accepted, unfiltered
ARP entry. -/
theorem parseArpLines_mem {lines : List (List Char)} {iface : Option String}
    {d : DiscoveredDevice} (h : d ∈ parseArpLines iface lines) :
    ∃ (ifc : Option String) (ip mac : List Char),
      mac.all isHexDashC = true ∧ arpEntrySkipped ip mac = false ∧
      d = mkArpDevice ifc ip mac := by
  induction lines generalizing iface with
  | nil => simp [parseArpLines] at h
  | cons line rest ih =>
    simp only [parseArpLines] at h
    split at h
    · exact ih h
    · split at h
      · exact ih h
      · rename_i hpair hentry
        split at h
        · exact ih h
        · rename_i hskip
          rcases List.mem_cons.mp h with rfl | hmem
          · refine ⟨iface, _, _, matchArpEntry_mac hentry,
              Bool.not_eq_true _ ▸ hskip, rfl⟩
          · exact ih hmem

/-- Uppering after lowering a whole character list is plain uppering. -/
theorem map_upperChar_lowerChar (l : List Char) :
    (l.map lowerChar).map upperChar = l.map upperChar := by
  rw [List.map_map]
  exact List.map_congr_left (fun a _ => upperChar_lowerChar a)

/-- One-character separator round trip: writing a colon as a dash does not
change MAC normalisation. -/
theorem sep_dash_char (c : Char) :
    dotToColon (dashToColon (upperChar (colonToDash c))) =
      dotToColon (dashToColon (upperChar c)) := by
  by_cases hc : c = ':'
  · subst hc; decide
  · unfold colonToDash
    rw [if_neg hc]

/-- One-character separator round trip: writing a colon as a dot does not
change MAC normalisation. -/
theorem sep_dot_char (c : Char) :
    dotToColon (dashToColon (upperChar (colonToDot c))) =
      dotToColon (dashToColon (upperChar c)) := by
  by_cases hc : c = ':'
  · subst hc; decide
  · unfold colonToDot
    rw [if_neg hc]

/-- MAC normalisation is insensitive to lowering. -/
theorem normalizeMacChars_lower (l : List Char) :
    normalizeMacChars (l.map lowerChar) = normalizeMacChars l := by
  unfold normalizeMacChars
  rw [map_upperChar_lowerChar]

/-- MAC normalisation is insensitive to colons written as dashes. -/
theorem normalizeMacChars_dash (l : List Char) :
    normalizeMacChars (l.map colonToDash) = normalizeMacChars l := by
  unfold normalizeMacChars
  simp only [List.map_map]
  exact List.map_congr_left (fun a _ => sep_dash_char a)

/-- MAC normalisation is insensitive to colons written as dots. -/
theorem normalizeMacChars_dot (l : List Char) :
    normalizeMacChars (l.map colonToDot) = normalizeMacChars l := by
  unfold normalizeMacChars
  simp only [List.map_map]
  exact List.map_congr_left (fun a _ => sep_dot_char a)

/-- C10 (amended): every device parse_windows_arp returns has an upper-cased
MAC over hexadecimal digits and colons (every dash replaced by a colon) that
is never the broadcast MAC and never carries a multicast prefix; its IP is
never a broadcast or multicast address; and its vendor is exactly the OUI
lookup of its MAC, a lookup insensitive to the MAC's case and to dash or dot
separator style. -/
theorem parse_windows_arp_invariants :
    ∀ (output : String) (d : DiscoveredDevice), d ∈ parse_windows_arp output →
    (∀ c ∈ d.mac_address.data, isUpperHexColonC c = true) ∧
    d.mac_address ≠ "FF:FF:FF:FF:FF:FF" ∧
    "01:00:5E".data.isPrefixOf d.mac_address.data = false ∧
    "33:33".data.isPrefixOf d.mac_address.data = false ∧
    ".255".data.isSuffixOf d.ip_address.data = false ∧
    d.ip_address ≠ "255.255.255.255" ∧
    "224.".data.isPrefixOf d.ip_address.data = false ∧
    "239.".data.isPrefixOf d.ip_address.data = false ∧
    d.vendor = get_vendor_from_mac d.mac_address ∧
    (∀ m : String,
      get_vendor_from_mac (lowerStr m) = get_vendor_from_mac m ∧
      get_vendor_from_mac ⟨m.data.map colonToDash⟩ = get_vendor_from_mac m ∧
      get_vendor_from_mac ⟨m.data.map colonToDot⟩ = get_vendor_from_mac m) := by
  intro output d hmem
  obtain ⟨ifc, ip, mac, hall, hskip, rfl⟩ := parseArpLines_mem hmem
  simp only [arpEntrySkipped, Bool.or_eq_false_iff] at hskip
  obtain ⟨⟨⟨⟨⟨⟨hbc, hm1⟩, hm2⟩, hsuf⟩, hip⟩, hp1⟩, hp2⟩ := hskip
  have hdata : (mkArpDevice ifc ip mac).mac_address.data =
      (mac.map dashToColon).map upperChar := rfl
  have hidata : (mkArpDevice ifc ip mac).ip_address.data = ip := rfl
  refine ⟨?_, ?_, ?_, ?_, ?_, ?_, ?_, ?_, rfl, ?_⟩
  · intro c hc
    rw [hdata] at hc
    rw [List.map_map] at hc
    rcases List.mem_map.mp hc with ⟨c0, hc0, hcc⟩
    rw [← hcc]
    exact hexdash_upper_charset (List.all_eq_true.mp hall c0 hc0)
  · intro heq
    have hd : ((mac.map dashToColon).map upperChar) = "FF:FF:FF:FF:FF:FF".data := by
      rw [← hdata, heq]
    have ht := mac_transport mac hall
    rw [hd] at ht
    have : ("FF:FF:FF:FF:FF:FF".data).map (fun c => colonToDash (lowerChar c)) =
        "ff-ff-ff-ff-ff-ff".data := by decide
    rw [this] at ht
    rw [← ht] at hbc
    simp at hbc
  · by_contra hpre
    rw [Bool.not_eq_false] at hpre
    rw [hdata] at hpre
    have hpre2 := List.isPrefixOf_iff_prefix.mp hpre
    have hpre3 := hpre2.map (fun c => colonToDash (lowerChar c))
    rw [mac_transport mac hall] at hpre3
    have hconc : ("01:00:5E".data).map (fun c => colonToDash (lowerChar c)) =
        "01-00-5e".data := by decide
    rw [hconc] at hpre3
    rw [← List.isPrefixOf_iff_prefix] at hpre3
    rw [hpre3] at hm1
    exact absurd hm1 (by simp)
  · by_contra hpre
    rw [Bool.not_eq_false] at hpre
    rw [hdata] at hpre
    have hpre2 := List.isPrefixOf_iff_prefix.mp hpre
    have hpre3 := hpre2.map (fun c => colonToDash (lowerChar c))
    rw [mac_transport mac hall] at hpre3
    have hconc : ("33:33".data).map (fun c => colonToDash (lowerChar c)) =
        "33-33".data := by decide
    rw [hconc] at hpre3
    rw [← List.isPrefixOf_iff_prefix] at hpre3
    rw [hpre3] at hm2
    exact absurd hm2 (by simp)
  · rw [hidata]
    exact hsuf
  · intro heq
    have : ip = "255.255.255.255".data := by
      rw [← hidata, heq]
    rw [this] at hip
    simp at hip
  · rw [hidata]
    exact hp1
  · rw [hidata]
    exact hp2
  · intro m
    refine ⟨?_, ?_, ?_⟩
    · unfold get_vendor_from_mac
      have hld : (lowerStr m).data = m.data.map lowerChar := rfl
      rw [hld, normalizeMacChars_lower]
    · unfold get_vendor_from_mac
      have hld : (String.mk (m.data.map colonToDash)).data = m.data.map colonToDash := rfl
      rw [hld, normalizeMacChars_dash]
    · unfold get_vendor_from_mac
      have hld : (String.mk (m.data.map colonToDot)).data = m.data.map colonToDot := rfl
      rw [hld, normalizeMacChars_dot]

/-- Witness for C10 at concrete ARP output: the device parsed from a
plain dynamic entry is not the broadcast MAC and its vendor is its own OUI
lookup. -/
theorem parse_windows_arp_invariants_witness :
    (mkArpDevice none "192.168.1.1".data "00-1a-2b-3c-4d-5e".data).mac_address ≠
      "FF:FF:FF:FF:FF:FF" ∧
    (mkArpDevice none "192.168.1.1".data "00-1a-2b-3c-4d-5e".data).vendor =
      get_vendor_from_mac
        (mkArpDevice none "192.168.1.1".data "00-1a-2b-3c-4d-5e".data).mac_address := by
  have h := parse_windows_arp_invariants
    "192.168.1.1          00-1a-2b-3c-4d-5e     dynamic"
    (mkArpDevice none "192.168.1.1".data "00-1a-2b-3c-4d-5e".data)
    (by decide)
  exact ⟨h.2.1, h.2.2.2.2.2.2.2.2.1⟩

/-- C10 counterexample to the claim as stated: the ARP-entry pattern accepts
a 17-character MAC token with no separators at all, so a returned
mac_address need not be in colon-separated form (here it contains no colon
whatsoever). -/
theorem parse_windows_arp_mac_form_cex :
    (parse_windows_arp "1.2.3.4 00112233445566778 dynamic").map
      (fun d => d.mac_address) = ["00112233445566778"] ∧
    (parse_windows_arp "1.2.3.4 00112233445566778 dynamic").map
      (fun d => isColonMacForm d.mac_address.data) = [false] := by
  decide
